import Mathlib

/-!
# simple_svg: a shallow embedding of `include/simple_svg.hpp`

The header builds SVG text from geometric primitives.  The embedding reads the
numbers of the header in two ways.  In the exact reading every C++ `double` is
a rational number (`ℚ`): there is no rounding, no signed zero, no infinity and
no NaN; the whole header is embedded in this reading.  In the binary64 reading
(`Double` and the namespace `binary64`) a `double` is an IEEE 754 binary64
value and every operation rounds to nearest, ties to even; the coordinate
transform and `Stroke` are embedded in this reading too, and the properties
that rounding or the sign of zero decides are settled there.  Text is `String`;
a `std::stringstream` that is only written to and then read back with `str()`
is the concatenation of what was written.  The ad hoc `optional<T>` of the
header is `Option T`, and its throwing `operator->` is `optional.deref` in the
`Except` monad.

Definitions come first, in the order of the header; theorems follow.
-/

namespace svg

/-! ## Number formatting (C++ standard library, as used by the header) -/

/-- Nearest natural number to the fraction `n / d`, ties going to the even
neighbour (the rounding `printf` applies to an exactly known value). -/
def roundHalfEven (n d : Nat) : Nat :=
  let q := n / d
  let r := n % d
  if 2 * r < d then q
  else if d < 2 * r then q + 1
  else if q % 2 = 0 then q else q + 1

/-- Decimal digits of a natural number, most significant first. -/
def decimalDigits (n : Nat) : List Char := Nat.toDigits 10 n

/-- Left padding with the character `0` up to a minimal width. -/
def padLeftZeros (width : Nat) (ds : List Char) : List Char :=
  List.replicate (width - ds.length) '0' ++ ds

/-- Removal of the zeros that end a digit string. -/
def stripTrailingZeros (ds : List Char) : List Char :=
  (ds.reverse.dropWhile (fun c => c == '0')).reverse

/-- Search for the least `k ≥ 1` with `d ≤ n * 10 ^ k`, bounded by `fuel`. -/
def negExpSearch (n d : Nat) : Nat → Nat → Nat
  | 0, k => k
  | fuel + 1, k => if d ≤ n * 10 ^ k then k else negExpSearch n d fuel (k + 1)

/-- Decimal exponent `⌊log₁₀ (n / d)⌋` of a positive fraction. -/
def decimalExponent (n d : Nat) : Int :=
  if d ≤ n then (((decimalDigits (n / d)).length - 1 : Nat) : Int)
  else - ((negExpSearch n d (decimalDigits d).length 1 : Nat) : Int)

/-- A decimal point followed by the fraction digits, or nothing when there are
no fraction digits left. -/
def pointAndFraction (fp : List Char) : List Char :=
  if fp.isEmpty then [] else '.' :: fp

/-- The text `std::to_string(double)` produces: `printf` conversion `%f`, that
is fixed notation with exactly six digits after the decimal point. -/
def to_string (v : ℚ) : String :=
  let n := roundHalfEven (v.num.natAbs * 10 ^ 6) v.den
  let body := decimalDigits (n / 10 ^ 6) ++ ['.'] ++ padLeftZeros 6 (decimalDigits (n % 10 ^ 6))
  String.mk ((if v < 0 then ['-'] else []) ++ body)

/-- The text `stream << double` produces on a stream with default flags:
`printf` conversion `%g` with precision 6.  The value is rounded to six
significant digits; with decimal exponent `x` of the rounded value, fixed
notation is used when `-4 ≤ x < 6` and scientific notation otherwise, and
trailing zeros of the fraction (and a decimal point left bare) are removed. -/
def streamDouble (v : ℚ) : String :=
  if v = 0 then "0" else
  let n := v.num.natAbs
  let d := v.den
  let x0 := decimalExponent n d
  let m0 := if x0 ≤ 5 then roundHalfEven (n * 10 ^ (5 - x0).toNat) d
            else roundHalfEven n (d * 10 ^ (x0 - 5).toNat)
  let m := if 10 ^ 6 ≤ m0 then m0 / 10 else m0
  let x := if 10 ^ 6 ≤ m0 then x0 + 1 else x0
  let ds := decimalDigits m
  let sign := if v < 0 then ['-'] else []
  let body :=
    if -4 ≤ x ∧ x < 6 then
      if 0 ≤ x then
        ds.take (x.toNat + 1) ++ pointAndFraction (stripTrailingZeros (ds.drop (x.toNat + 1)))
      else
        '0' :: '.' :: stripTrailingZeros (List.replicate ((-x).toNat - 1) '0' ++ ds)
    else
      ds.take 1 ++ pointAndFraction (stripTrailingZeros (ds.drop 1)) ++ ['e']
        ++ (if x < 0 then ['-'] else ['+']) ++ padLeftZeros 2 (decimalDigits x.natAbs)
  String.mk (sign ++ body)

/-- The text `stream << int` produces. -/
def streamInt (i : Int) : String :=
  String.mk ((if i < 0 then ['-'] else []) ++ decimalDigits i.natAbs)

/-! ## Utility XML/String functions -/

/-- The function `attribute(attribute_name, value, unit)` of the header (its
name is a reserved word here); `value` is the text the stream writes for the
C++ value (`streamDouble` for a `double`, the string itself for a string). -/
def xmlAttribute (attribute_name value unit : String) : String :=
  attribute_name ++ "=\"" ++ value ++ unit ++ "\" "

def elemStart (element_name : String) : String :=
  "\t<" ++ element_name ++ " "

def elemEnd (element_name : String) : String :=
  "</" ++ element_name ++ ">\n"

def emptyElemEnd : String := "/>\n"

/-! ## The quick optional return type -/

/-- The fault raised by `optional<T>::operator->` on an invalid value. -/
inductive Exception where
  | std_exception
  deriving DecidableEq, Repr

/-- Equality of the outcomes of a call that may throw can be decided. -/
instance exceptDecidableEq {ε α : Type} [DecidableEq ε] [DecidableEq α] :
    DecidableEq (Except ε α)
  | Except.ok a, Except.ok b =>
    if h : a = b then isTrue (by rw [h]) else isFalse (fun h1 => h (Except.ok.inj h1))
  | Except.error a, Except.error b =>
    if h : a = b then isTrue (by rw [h]) else isFalse (fun h1 => h (Except.error.inj h1))
  | Except.ok _, Except.error _ => isFalse (fun h => Except.noConfusion h)
  | Except.error _, Except.ok _ => isFalse (fun h => Except.noConfusion h)

/-- The access `optional<T>::operator->`: the value when valid, a thrown
exception otherwise. -/
def optional.deref {α : Type} : Option α → Except Exception α
  | some a => Except.ok a
  | none => Except.error Exception.std_exception

/-! ## Geometry -/

structure Dimensions where
  width : ℚ
  height : ℚ
  deriving DecidableEq

/-- Constructor `Dimensions(double combined = 0)`. -/
def Dimensions.combined (c : ℚ) : Dimensions := ⟨c, c⟩

structure Point where
  x : ℚ
  y : ℚ
  deriving DecidableEq

/-- One pass of the loop body of `getMinPoint`. -/
def minStep (min p : Point) : Point :=
  let min1 : Point := if p.x < min.x then { min with x := p.x } else min
  if p.y < min1.y then { min1 with y := p.y } else min1

/-- One pass of the loop body of `getMaxPoint`. -/
def maxStep (max p : Point) : Point :=
  let max1 : Point := if p.x > max.x then { max with x := p.x } else max
  if p.y > max1.y then { max1 with y := p.y } else max1

def getMinPoint (points : List Point) : Option Point :=
  match points with
  | [] => none
  | p0 :: _ => some (points.foldl minStep p0)

def getMaxPoint (points : List Point) : Option Point :=
  match points with
  | [] => none
  | p0 :: _ => some (points.foldl maxStep p0)

/-! ## Layout and coordinate transform -/

inductive Origin where
  | TopLeft
  | BottomLeft
  | TopRight
  | BottomRight
  deriving DecidableEq, Repr

structure Layout where
  dimensions : Dimensions
  window : Dimensions
  scale : ℚ
  origin : Origin
  origin_offset : Point
  deriving DecidableEq

/-- Convert coordinates in user space to SVG native space (exact reading; the
rounded one is `binary64.translateX`). -/
def translateX (layout : Layout) (x w : ℚ) : ℚ :=
  let x_out := (x + layout.origin_offset.x) * layout.scale
  match layout.origin with
  | Origin.TopLeft => x_out
  | Origin.BottomLeft => x_out
  | Origin.TopRight => layout.dimensions.width - x_out - w
  | Origin.BottomRight => layout.dimensions.width - x_out - w

/-- The vertical counterpart of `translateX` (exact reading; the rounded one is
`binary64.translateY`). -/
def translateY (layout : Layout) (y h : ℚ) : ℚ :=
  let y_out := (y + layout.origin_offset.y) * layout.scale
  match layout.origin with
  | Origin.TopLeft => y_out
  | Origin.TopRight => y_out
  | Origin.BottomLeft => layout.dimensions.height - y_out - h
  | Origin.BottomRight => layout.dimensions.height - y_out - h

/-- The scaling of a length (exact reading; the rounded one is
`binary64.translateScale`). -/
def translateScale (dimension : ℚ) (layout : Layout) : ℚ :=
  dimension * layout.scale

/-! ## Style value objects -/

/-- The enumeration `Color::Defaults`. -/
inductive Defaults where
  | Transparent | Aqua | Black | Blue | Brown | Cyan | Fuchsia | Green | Lime
  | Magenta | Orange | Purple | Red | Silver | White | Yellow
  deriving DecidableEq, Repr

structure Color where
  transparent : Bool
  red : Int
  green : Int
  blue : Int
  deriving DecidableEq

/-- Constructor `Color(int r, int g, int b)`. -/
def Color.rgb (r g b : Int) : Color := ⟨false, r, g, b⟩

/-- Constructor `Color(Defaults color)`. -/
def Color.ofDefaults : Defaults → Color
  | Defaults.Aqua => ⟨false, 0, 255, 255⟩
  | Defaults.Black => ⟨false, 0, 0, 0⟩
  | Defaults.Blue => ⟨false, 0, 0, 255⟩
  | Defaults.Brown => ⟨false, 165, 42, 42⟩
  | Defaults.Cyan => ⟨false, 0, 255, 255⟩
  | Defaults.Fuchsia => ⟨false, 255, 0, 255⟩
  | Defaults.Green => ⟨false, 0, 128, 0⟩
  | Defaults.Lime => ⟨false, 0, 255, 0⟩
  | Defaults.Magenta => ⟨false, 255, 0, 255⟩
  | Defaults.Orange => ⟨false, 255, 165, 0⟩
  | Defaults.Purple => ⟨false, 128, 0, 128⟩
  | Defaults.Red => ⟨false, 255, 0, 0⟩
  | Defaults.Silver => ⟨false, 192, 192, 192⟩
  | Defaults.White => ⟨false, 255, 255, 255⟩
  | Defaults.Yellow => ⟨false, 255, 255, 0⟩
  | Defaults.Transparent => ⟨true, 0, 0, 0⟩

def Color.toString (c : Color) (_ : Layout) : String :=
  if c.transparent then "transparent"
  else "rgb(" ++ streamInt c.red ++ "," ++ streamInt c.green ++ "," ++ streamInt c.blue ++ ")"

structure Fill where
  color : Color
  deriving DecidableEq

/-- Constructor `Fill(Color::Defaults color_)`. -/
def Fill.ofDefaults (color_ : Defaults) : Fill := ⟨Color.ofDefaults color_⟩

/-- Constructor `Fill()` with the argument left at its default,
`Color::Transparent`. -/
def Fill.default : Fill := ⟨Color.ofDefaults Defaults.Transparent⟩

def Fill.toString (f : Fill) (layout : Layout) : String :=
  xmlAttribute "fill" (f.color.toString layout) ""

structure Stroke where
  width : ℚ
  color : Color
  deriving DecidableEq

/-- Constructor `Stroke()` with both arguments left at their defaults: width
`-1` and `Color::Transparent`. -/
def Stroke.default : Stroke := ⟨-1, Color.ofDefaults Defaults.Transparent⟩

def Stroke.toString (s : Stroke) (layout : Layout) : String :=
  -- If stroke width is invalid.
  if s.width < 0 then ""
  else
    xmlAttribute "stroke-width" (streamDouble (translateScale s.width layout)) ""
      ++ xmlAttribute "stroke" (s.color.toString layout) ""

structure Font where
  size : ℚ
  family : String
  deriving DecidableEq

/-- Constructor `Font()` with both arguments left at their defaults. -/
def Font.default : Font := ⟨12, "Verdana"⟩

def Font.toString (f : Font) (layout : Layout) : String :=
  xmlAttribute "font-size" (streamDouble (translateScale f.size layout)) ""
    ++ xmlAttribute "font-family" f.family ""

/-! ## Shapes

Every class derived from `Shape` carries the two members of the base class,
`fill` and `stroke`, followed by its own geometry. -/

/-- The loop of `vectorToString`: the renderings, concatenated in order. -/
def vectorToString {α : Type} (toStr : α → Layout → String) (collection : List α)
    (layout : Layout) : String :=
  collection.foldl (fun combination_str c => combination_str ++ toStr c layout) ""

structure Circle where
  fill : Fill
  stroke : Stroke
  center : Point
  radius : ℚ
  deriving DecidableEq

/-- Constructor `Circle(center_, diameter_, fill_, stroke_)`. -/
def Circle.new (center_ : Point) (diameter_ : ℚ) (fill_ : Fill) (stroke_ : Stroke) : Circle :=
  { fill := fill_, stroke := stroke_, center := center_, radius := diameter_ / 2 }

def Circle.toString (c : Circle) (layout : Layout) : String :=
  elemStart "circle" ++ xmlAttribute "cx" (streamDouble (translateX layout c.center.x 0)) ""
    ++ xmlAttribute "cy" (streamDouble (translateY layout c.center.y 0)) ""
    ++ xmlAttribute "r" (streamDouble (translateScale c.radius layout)) "" ++ c.fill.toString layout
    ++ c.stroke.toString layout ++ emptyElemEnd

def Circle.offset (c : Circle) (offset : Point) : Circle :=
  { c with center := ⟨c.center.x + offset.x, c.center.y + offset.y⟩ }

structure Elipse where
  fill : Fill
  stroke : Stroke
  center : Point
  radius_width : ℚ
  radius_height : ℚ
  deriving DecidableEq

/-- Constructor `Elipse(center_, width_, height_, fill_, stroke_)`. -/
def Elipse.new (center_ : Point) (width_ height_ : ℚ) (fill_ : Fill) (stroke_ : Stroke) : Elipse :=
  { fill := fill_, stroke := stroke_, center := center_, radius_width := width_ / 2,
    radius_height := height_ / 2 }

def Elipse.toString (e : Elipse) (layout : Layout) : String :=
  elemStart "ellipse" ++ xmlAttribute "cx" (streamDouble (translateX layout e.center.x 0)) ""
    ++ xmlAttribute "cy" (streamDouble (translateY layout e.center.y 0)) ""
    ++ xmlAttribute "rx" (streamDouble (translateScale e.radius_width layout)) ""
    ++ xmlAttribute "ry" (streamDouble (translateScale e.radius_height layout)) ""
    ++ e.fill.toString layout ++ e.stroke.toString layout ++ emptyElemEnd

def Elipse.offset (e : Elipse) (offset : Point) : Elipse :=
  { e with center := ⟨e.center.x + offset.x, e.center.y + offset.y⟩ }

structure Rectangle where
  fill : Fill
  stroke : Stroke
  edge : Point
  width : ℚ
  height : ℚ
  deriving DecidableEq

/-- Constructor `Rectangle(edge_, width_, height_, fill_, stroke_)`. -/
def Rectangle.new (edge_ : Point) (width_ height_ : ℚ) (fill_ : Fill) (stroke_ : Stroke) :
    Rectangle :=
  { fill := fill_, stroke := stroke_, edge := edge_, width := width_, height := height_ }

def Rectangle.toString (r : Rectangle) (layout : Layout) : String :=
  elemStart "rect"
    ++ xmlAttribute "x" (streamDouble (translateX layout r.edge.x r.width)) ""
    ++ xmlAttribute "y" (streamDouble (translateY layout r.edge.y r.height)) ""
    ++ xmlAttribute "width" (streamDouble (translateScale r.width layout)) ""
    ++ xmlAttribute "height" (streamDouble (translateScale r.height layout)) ""
    ++ r.fill.toString layout ++ r.stroke.toString layout ++ emptyElemEnd

def Rectangle.offset (r : Rectangle) (offset : Point) : Rectangle :=
  { r with edge := ⟨r.edge.x + offset.x, r.edge.y + offset.y⟩ }

structure Line where
  fill : Fill
  stroke : Stroke
  start_point : Point
  end_point : Point
  deriving DecidableEq

/-- Constructor `Line(start_point_, end_point_, stroke_)`; the base class is
built with `Fill()`. -/
def Line.new (start_point_ end_point_ : Point) (stroke_ : Stroke) : Line :=
  { fill := Fill.default, stroke := stroke_, start_point := start_point_,
    end_point := end_point_ }

def Line.toString (l : Line) (layout : Layout) : String :=
  elemStart "line" ++ xmlAttribute "x1" (streamDouble (translateX layout l.start_point.x 0)) ""
    ++ xmlAttribute "y1" (streamDouble (translateY layout l.start_point.y 0)) ""
    ++ xmlAttribute "x2" (streamDouble (translateX layout l.end_point.x 0)) ""
    ++ xmlAttribute "y2" (streamDouble (translateY layout l.end_point.y 0)) ""
    ++ l.stroke.toString layout ++ emptyElemEnd

def Line.offset (l : Line) (offset : Point) : Line :=
  { l with
    start_point := ⟨l.start_point.x + offset.x, l.start_point.y + offset.y⟩
    end_point := ⟨l.end_point.x + offset.x, l.end_point.y + offset.y⟩ }

/-- The loop that writes the value of the `points` attribute in
`Polygon::toString` and `Polyline::toString`. -/
def pointsToString (points : List Point) (layout : Layout) : String :=
  points.foldl
    (fun ss p => ss ++ streamDouble (translateX layout p.x 0) ++ ","
      ++ streamDouble (translateY layout p.y 0) ++ " ") ""

/-- The loop of `Polygon::offset` and `Polyline::offset`. -/
def offsetPoints (points : List Point) (offset : Point) : List Point :=
  points.map (fun p => ⟨p.x + offset.x, p.y + offset.y⟩)

structure Polygon where
  fill : Fill
  stroke : Stroke
  points : List Point
  deriving DecidableEq

/-- Constructor `Polygon(fill_, stroke_)`. -/
def Polygon.new (fill_ : Fill) (stroke_ : Stroke) : Polygon :=
  { fill := fill_, stroke := stroke_, points := [] }

/-- Constructor `Polygon(stroke_)`, whose fill is `Color::Transparent`. -/
def Polygon.ofStroke (stroke_ : Stroke) : Polygon :=
  { fill := Fill.ofDefaults Defaults.Transparent, stroke := stroke_, points := [] }

/-- The member `Polygon::operator<<(Point const &)`. -/
def Polygon.push (pg : Polygon) (point : Point) : Polygon :=
  { pg with points := pg.points ++ [point] }

def Polygon.toString (pg : Polygon) (layout : Layout) : String :=
  elemStart "polygon" ++ "points=\"" ++ pointsToString pg.points layout ++ "\" "
    ++ pg.fill.toString layout ++ pg.stroke.toString layout ++ emptyElemEnd

def Polygon.offset (pg : Polygon) (offset : Point) : Polygon :=
  { pg with points := offsetPoints pg.points offset }

structure Polyline where
  fill : Fill
  stroke : Stroke
  points : List Point
  deriving DecidableEq

/-- Constructor `Polyline(fill_, stroke_)`. -/
def Polyline.new (fill_ : Fill) (stroke_ : Stroke) : Polyline :=
  { fill := fill_, stroke := stroke_, points := [] }

/-- Constructor `Polyline(stroke_)`, whose fill is `Color::Transparent`. -/
def Polyline.ofStroke (stroke_ : Stroke) : Polyline :=
  { fill := Fill.ofDefaults Defaults.Transparent, stroke := stroke_, points := [] }

/-- Constructor `Polyline(points_, fill_, stroke_)`. -/
def Polyline.ofPoints (points_ : List Point) (fill_ : Fill) (stroke_ : Stroke) : Polyline :=
  { fill := fill_, stroke := stroke_, points := points_ }

/-- The member `Polyline::operator<<(Point const &)`. -/
def Polyline.push (pl : Polyline) (point : Point) : Polyline :=
  { pl with points := pl.points ++ [point] }

def Polyline.toString (pl : Polyline) (layout : Layout) : String :=
  elemStart "polyline" ++ "points=\"" ++ pointsToString pl.points layout ++ "\" "
    ++ pl.fill.toString layout ++ pl.stroke.toString layout ++ emptyElemEnd

def Polyline.offset (pl : Polyline) (offset : Point) : Polyline :=
  { pl with points := offsetPoints pl.points offset }

structure Text where
  fill : Fill
  stroke : Stroke
  origin : Point
  content : String
  font : Font
  deriving DecidableEq

/-- Constructor `Text(origin_, content_, fill_, font_, stroke_)`. -/
def Text.new (origin_ : Point) (content_ : String) (fill_ : Fill) (font_ : Font)
    (stroke_ : Stroke) : Text :=
  { fill := fill_, stroke := stroke_, origin := origin_, content := content_, font := font_ }

def Text.toString (t : Text) (layout : Layout) : String :=
  elemStart "text" ++ xmlAttribute "x" (streamDouble (translateX layout t.origin.x 0)) ""
    ++ xmlAttribute "y" (streamDouble (translateY layout t.origin.y 0)) ""
    ++ t.fill.toString layout ++ t.stroke.toString layout ++ t.font.toString layout
    ++ ">" ++ t.content ++ elemEnd "text"

def Text.offset (t : Text) (offset : Point) : Text :=
  { t with origin := ⟨t.origin.x + offset.x, t.origin.y + offset.y⟩ }

/-! ## Sample charting class -/

structure LineChart where
  fill : Fill
  stroke : Stroke
  axis_stroke : Stroke
  margin : Dimensions
  scale : ℚ
  polylines : List Polyline
  deriving DecidableEq

/-- Constructor `LineChart(margin_, scale_, axis_stroke_)`; the base class is
built with its defaults and no polyline is stored. -/
def LineChart.new (margin_ : Dimensions) (scale_ : ℚ) (axis_stroke_ : Stroke) : LineChart :=
  { fill := Fill.default, stroke := Stroke.default, axis_stroke := axis_stroke_,
    margin := margin_, scale := scale_, polylines := [] }

/-- The member `LineChart::operator<<(Polyline const &)`. -/
def LineChart.push (c : LineChart) (polyline : Polyline) : LineChart :=
  if polyline.points.isEmpty then c
  else { c with polylines := c.polylines ++ [polyline] }

def LineChart.offset (c : LineChart) (offset : Point) : LineChart :=
  { c with polylines := c.polylines.map (fun pl => pl.offset offset) }

/-- One pass of the loop of `LineChart::getDimensions` over a stored polyline:
the four guarded assignments, every `->` being an access that may throw. -/
def LineChart.getDimensionsStep (acc : Option Point × Option Point) (pl : Polyline) :
    Except Exception (Option Point × Option Point) := do
  let min := acc.1
  let max := acc.2
  -- if (getMinPoint(polylines[i].points)->x < min->x) min->x = ...
  let a ← optional.deref (getMinPoint pl.points)
  let m ← optional.deref min
  let min1 : Point ← if a.x < m.x then
      (do let a1 ← optional.deref (getMinPoint pl.points); pure { m with x := a1.x })
    else pure m
  -- if (getMinPoint(polylines[i].points)->y < min->y) min->y = ...
  let b ← optional.deref (getMinPoint pl.points)
  let min2 : Point ← if b.y < min1.y then
      (do let b1 ← optional.deref (getMinPoint pl.points); pure { min1 with y := b1.y })
    else pure min1
  -- if (getMaxPoint(polylines[i].points)->x > max->x) max->x = ...
  let c ← optional.deref (getMaxPoint pl.points)
  let n ← optional.deref max
  let max1 : Point ← if c.x > n.x then
      (do let c1 ← optional.deref (getMaxPoint pl.points); pure { n with x := c1.x })
    else pure n
  -- if (getMaxPoint(polylines[i].points)->y > max->y) max->y = ...
  let d ← optional.deref (getMaxPoint pl.points)
  let max2 : Point ← if d.y > max1.y then
      (do let d1 ← optional.deref (getMaxPoint pl.points); pure { max1 with y := d1.y })
    else pure max1
  pure (some min2, some max2)

def LineChart.getDimensions (c : LineChart) : Except Exception (Option Dimensions) :=
  match c.polylines with
  | [] => pure none
  | p0 :: _ => do
    let acc ← c.polylines.foldlM LineChart.getDimensionsStep
      (getMinPoint p0.points, getMaxPoint p0.points)
    let max ← optional.deref acc.2
    let min ← optional.deref acc.1
    pure (some ⟨max.x - min.x, max.y - min.y⟩)

def LineChart.axisString (c : LineChart) (layout : Layout) : Except Exception String := do
  let dimensions ← c.getDimensions
  match dimensions with
  | none => pure ""
  | some dim =>
    -- Make the axis 10% wider and higher than the data points.
    let width := dim.width * (11 / 10)
    let height := dim.height * (11 / 10)
    -- Draw the axis.
    let axis := (((Polyline.new (Fill.ofDefaults Defaults.Transparent) c.axis_stroke).push
      ⟨c.margin.width, c.margin.height + height⟩).push
      ⟨c.margin.width, c.margin.height⟩).push
      ⟨c.margin.width + width, c.margin.height⟩
    pure (axis.toString layout)

def LineChart.polylineToString (c : LineChart) (polyline : Polyline) (layout : Layout) :
    Except Exception String := do
  let shifted_polyline := polyline.offset ⟨c.margin.width, c.margin.height⟩
  let vertices ← shifted_polyline.points.mapM (fun p => do
    let dimensions ← c.getDimensions
    let dim ← optional.deref dimensions
    pure (Circle.new p (dim.height / 30) (Fill.ofDefaults Defaults.Black) Stroke.default))
  pure (shifted_polyline.toString layout ++ vectorToString Circle.toString vertices layout)

def LineChart.toString (c : LineChart) (layout : Layout) : Except Exception String :=
  if c.polylines.isEmpty then pure ""
  else do
    let ret ← c.polylines.foldlM
      (fun ret pl => do
        let s ← c.polylineToString pl layout
        pure (ret ++ s)) ""
    let axis ← c.axisString layout
    pure (ret ++ axis)

/-! ## The closed set of shapes and the document -/

/-- The classes derived from `Shape`, dispatched on by the virtual members
`toString` and `offset`. -/
inductive Shape where
  | circle (s : Circle)
  | elipse (s : Elipse)
  | rectangle (s : Rectangle)
  | line (s : Line)
  | polygon (s : Polygon)
  | polyline (s : Polyline)
  | text (s : Text)
  | lineChart (s : LineChart)
  deriving DecidableEq

def Shape.toString : Shape → Layout → Except Exception String
  | Shape.circle s, layout => pure (s.toString layout)
  | Shape.elipse s, layout => pure (s.toString layout)
  | Shape.rectangle s, layout => pure (s.toString layout)
  | Shape.line s, layout => pure (s.toString layout)
  | Shape.polygon s, layout => pure (s.toString layout)
  | Shape.polyline s, layout => pure (s.toString layout)
  | Shape.text s, layout => pure (s.toString layout)
  | Shape.lineChart s, layout => s.toString layout

def Shape.offset : Shape → Point → Shape
  | Shape.circle s, offset => Shape.circle (s.offset offset)
  | Shape.elipse s, offset => Shape.elipse (s.offset offset)
  | Shape.rectangle s, offset => Shape.rectangle (s.offset offset)
  | Shape.line s, offset => Shape.line (s.offset offset)
  | Shape.polygon s, offset => Shape.polygon (s.offset offset)
  | Shape.polyline s, offset => Shape.polyline (s.offset offset)
  | Shape.text s, offset => Shape.text (s.offset offset)
  | Shape.lineChart s, offset => Shape.lineChart (s.offset offset)

/-- The observable state of an output stream: what `good()` answers, whether
the underlying file is open (`true` for a stream that is not a file stream),
and the text written so far. -/
structure OStream where
  good : Bool
  is_open : Bool
  written : String
  deriving DecidableEq

/-- Insertion `stream << text` of a whole string.  On a stream that is not good
nothing is written.  On a good stream whose file is open the text is taken to
be written in full.  On a good stream whose file is closed the stream buffer
accepts no character: nothing is written and, unless the text is empty, the
bad bit is set. -/
def OStream.write (s : OStream) (text : String) : OStream :=
  if s.good then
    if s.is_open then { s with written := s.written ++ text }
    else if text = "" then s
    else { s with good := false }
  else s

/-- The call `close()` on a file stream: an open file is closed; on a file that
is not open the call fails and sets the fail bit. -/
def OStream.close (s : OStream) : OStream :=
  if s.is_open then { s with is_open := false } else { s with good := false }

/-- The class `Document`.  The member `stream_real` of type
`std::optional<std::ofstream>` and the reference `stream` are kept as one
stream state together with the flag `stream_real`, which says whether the
optional holds the file stream (the document owns its sink). -/
structure Document where
  layout : Layout
  stream_real : Bool
  stream : OStream
  body_nodes_str : String
  deriving DecidableEq

/-- Constructor `Document(file_name, layout_)`; `file` is the state of the file
stream that opening `file_name` produced. -/
def Document.ofFile (file : OStream) (layout_ : Layout) : Document :=
  { layout := layout_, stream_real := true, stream := file, body_nodes_str := "" }

/-- Constructor `Document(out, layout_)` on a stream owned by the caller. -/
def Document.ofStream (out : OStream) (layout_ : Layout) : Document :=
  { layout := layout_, stream_real := false, stream := out, body_nodes_str := "" }

/-- The member `Document::operator<<(Shape const &)`: the shape is rendered at
once and the text is added to the body; an exception thrown by the rendering
leaves the call before the body is assigned. -/
def Document.push (d : Document) (shape : Shape) : Except Exception Document := do
  let fragment ← shape.toString d.layout
  pure { d with body_nodes_str := d.body_nodes_str ++ fragment }

/-- Everything `Document::toString` writes before the body. -/
def Document.header (layout : Layout) : String :=
  "<?xml "
    ++ xmlAttribute "version" "1.0" ""
    ++ xmlAttribute "standalone" "no" ""
    ++ "?>\n<!DOCTYPE svg PUBLIC \"-//W3C//DTD SVG 1.1//EN\" "
    ++ "\"http://www.w3.org/Graphics/SVG/1.1/DTD/svg11.dtd\">\n<svg "
    ++ xmlAttribute "width" (streamDouble layout.window.width) "px"
    ++ xmlAttribute "height" (streamDouble layout.window.height) "px"
    ++ xmlAttribute "viewBox"
        ("0 0 " ++ to_string layout.dimensions.width ++ " " ++ to_string layout.dimensions.height) ""
    ++ xmlAttribute "preserveAspectRatio" "xMinYMin meet" ""
    ++ xmlAttribute "xmlns" "http://www.w3.org/2000/svg" ""
    ++ xmlAttribute "version" "1.1" "" ++ ">\n"

def Document.toString (d : Document) : String :=
  Document.header d.layout ++ d.body_nodes_str ++ elemEnd "svg"

/-- The member `Document::save`: the returned flag and the document after the
call. -/
def Document.save (d : Document) : Bool × Document :=
  if !d.stream.good then (false, d)
  else
    let d1 := { d with stream := d.stream.write d.toString }
    let d2 := if d1.stream_real then { d1 with stream := d1.stream.close } else d1
    (true, d2)

/-- Successive `operator<<` calls on a document, in list order. -/
def Document.pushAll (d : Document) (shapes : List Shape) : Except Exception Document :=
  shapes.foldlM Document.push d

/-! ## Notions used to state the properties of the chart and of the sink -/

/-- The local variable `axis` of `LineChart::axisString`, as built there from
the data dimensions `dim`, the margin and the axis stroke. -/
def LineChart.axisPolyline (c : LineChart) (dim : Dimensions) : Polyline :=
  let width := dim.width * (11 / 10)
  let height := dim.height * (11 / 10)
  (((Polyline.new (Fill.ofDefaults Defaults.Transparent) c.axis_stroke).push
    ⟨c.margin.width, c.margin.height + height⟩).push
    ⟨c.margin.width, c.margin.height⟩).push
    ⟨c.margin.width + width, c.margin.height⟩

/-- The circle `LineChart::polylineToString` builds for the vertex `p` when the
data bounding box has the given height. -/
def LineChart.vertexCircle (p : Point) (height : ℚ) : Circle :=
  Circle.new p (height / 30) (Fill.ofDefaults Defaults.Black) Stroke.default

/-- The union of the points of all stored polylines, in storage order. -/
def LineChart.dataPoints (c : LineChart) : List Point :=
  (c.polylines.map Polyline.points).flatten

/-- The point `p` lies in the axis-aligned box spanned by the vertices `vs`:
its `x` is between the smallest and the largest `x` of a vertex, and its `y`
between the smallest and the largest `y` of a vertex. -/
def insideSpan (vs : List Point) (p : Point) : Prop :=
  (∃ a ∈ vs, a.x ≤ p.x) ∧ (∃ b ∈ vs, p.x ≤ b.x) ∧
  (∃ a ∈ vs, a.y ≤ p.y) ∧ (∃ b ∈ vs, p.y ≤ b.y)

instance insideSpanDecidable (vs : List Point) (p : Point) : Decidable (insideSpan vs p) := by
  unfold insideSpan
  infer_instance

/-- A call a client can make on a line chart: `operator<<` or `offset`. -/
inductive LineChartOp where
  | push (polyline : Polyline)
  | offset (offset : Point)
  deriving DecidableEq

def LineChart.applyOp (c : LineChart) : LineChartOp → LineChart
  | LineChartOp.push polyline => c.push polyline
  | LineChartOp.offset offset => c.offset offset

/-- A sequence of calls on a line chart, made in list order. -/
def LineChart.applyOps (c : LineChart) (ops : List LineChartOp) : LineChart :=
  ops.foldl LineChart.applyOp c

/-- The state in which the constructor `std::ofstream(file_name)` leaves the
stream: open and good with nothing written when the file could be opened,
closed with the fail bit set otherwise. -/
def OStream.openFile (opened : Bool) : OStream :=
  { good := opened, is_open := opened, written := "" }

/-! ## Binary64 arithmetic

The values of a C++ `double` and the operations the coordinate transform and
`Stroke` use, each rounding its exact result to nearest, ties to even. -/

/-- An IEEE 754 binary64 value: a finite value given by its sign bit and its
magnitude (zero carries a sign), an infinity with its sign, or a NaN, whose
sign and payload are not kept. -/
inductive Double where
  | finite (negative : Bool) (magnitude : ℚ)
  | infinite (negative : Bool)
  | nan
  deriving DecidableEq

/-- The number `⌊log₂ n⌋` of a positive natural number: one less than the
count of its binary digits. -/
def binaryLog (n : Nat) : Nat := (Nat.toDigits 2 n).length - 1

/-- Binary exponent `⌊log₂ (n / d)⌋` of a positive fraction. -/
def binaryExponent (n d : Nat) : Int :=
  let c : Int := (binaryLog n : Int) - (binaryLog d : Int)
  if 0 ≤ c then (if d * 2 ^ c.toNat ≤ n then c else c - 1)
  else (if d ≤ n * 2 ^ (-c).toNat then c else c - 1)

/-- Rounding of the magnitude `r ≥ 0` of an exact result to binary64: 53
significant bits for a normal value, multiples of `2 ^ (-1074)` below
`2 ^ (-1022)`, nearest with ties to even, and an infinity once the rounded
magnitude reaches `2 ^ 1024`. -/
def Double.round (negative : Bool) (r : ℚ) : Double :=
  if r = 0 then Double.finite negative 0
  else
    let n := r.num.natAbs
    let d := r.den
    let e := max (binaryExponent n d) (-1022)
    let u := e - 52
    let m := if 0 ≤ u then roundHalfEven n (d * 2 ^ u.toNat)
             else roundHalfEven (n * 2 ^ (-u).toNat) d
    let v : ℚ := if 0 ≤ u then (m : ℚ) * 2 ^ u.toNat else (m : ℚ) / 2 ^ (-u).toNat
    if (2 : ℚ) ^ 1024 ≤ v then Double.infinite negative else Double.finite negative v

/-- The `double` a decimal literal or an integer stands for: the nearest
binary64 value. -/
def Double.ofRat (q : ℚ) : Double := Double.round (decide (q < 0)) |q|

/-- The rational value of a sign bit and a magnitude. -/
def Double.signed (negative : Bool) (magnitude : ℚ) : ℚ :=
  if negative then -magnitude else magnitude

/-- Unary minus: the sign bit is flipped. -/
def Double.neg : Double → Double
  | Double.finite s m => Double.finite (!s) m
  | Double.infinite s => Double.infinite (!s)
  | Double.nan => Double.nan

/-- The operator `+` on `double`.  An exact sum of zero is `+0`, except that
`-0 + -0` is `-0`. -/
def Double.add : Double → Double → Double
  | Double.nan, _ => Double.nan
  | _, Double.nan => Double.nan
  | Double.infinite a, Double.infinite b => if a = b then Double.infinite a else Double.nan
  | Double.infinite a, Double.finite _ _ => Double.infinite a
  | Double.finite _ _, Double.infinite b => Double.infinite b
  | Double.finite s1 m1, Double.finite s2 m2 =>
    let r := Double.signed s1 m1 + Double.signed s2 m2
    if r = 0 then Double.finite (s1 && s2) 0 else Double.round (decide (r < 0)) |r|

/-- The operator `-` on `double`. -/
def Double.sub (a b : Double) : Double := a.add b.neg

/-- The operator `*` on `double`.  The sign of the product is the exclusive or
of the signs, also when the product is zero. -/
def Double.mul : Double → Double → Double
  | Double.nan, _ => Double.nan
  | _, Double.nan => Double.nan
  | Double.infinite a, Double.infinite b => Double.infinite (xor a b)
  | Double.infinite a, Double.finite s m =>
    if m = 0 then Double.nan else Double.infinite (xor a s)
  | Double.finite s m, Double.infinite b =>
    if m = 0 then Double.nan else Double.infinite (xor s b)
  | Double.finite s1 m1, Double.finite s2 m2 => Double.round (xor s1 s2) (m1 * m2)

/-- The operator `<` on `double`: false when an operand is a NaN, and the two
zeros are equal. -/
def Double.lt : Double → Double → Bool
  | Double.nan, _ => false
  | _, Double.nan => false
  | Double.infinite a, Double.infinite b => a && !b
  | Double.infinite a, Double.finite _ _ => a
  | Double.finite _ _, Double.infinite b => !b
  | Double.finite s1 m1, Double.finite s2 m2 =>
    decide (Double.signed s1 m1 < Double.signed s2 m2)

/-- The text `stream << double` produces on a stream with default flags: a
minus sign when the sign bit is set, also for zero, then the `%g` text of the
magnitude.  The text for a NaN is taken to be `nan`; a C library may write
`-nan`. -/
def Double.stream : Double → String
  | Double.finite s m => (if s then "-" else "") ++ streamDouble m
  | Double.infinite s => (if s then "-" else "") ++ "inf"
  | Double.nan => "nan"

namespace binary64

structure Dimensions where
  width : Double
  height : Double
  deriving DecidableEq

structure Point where
  x : Double
  y : Double
  deriving DecidableEq

structure Layout where
  dimensions : Dimensions
  window : Dimensions
  scale : Double
  origin : Origin
  origin_offset : Point
  deriving DecidableEq

/-- Convert coordinates in user space to SVG native space. -/
def translateX (layout : Layout) (x w : Double) : Double :=
  let x_out := (x.add layout.origin_offset.x).mul layout.scale
  match layout.origin with
  | Origin.TopLeft => x_out
  | Origin.BottomLeft => x_out
  | Origin.TopRight => (layout.dimensions.width.sub x_out).sub w
  | Origin.BottomRight => (layout.dimensions.width.sub x_out).sub w

def translateY (layout : Layout) (y h : Double) : Double :=
  let y_out := (y.add layout.origin_offset.y).mul layout.scale
  match layout.origin with
  | Origin.TopLeft => y_out
  | Origin.TopRight => y_out
  | Origin.BottomLeft => (layout.dimensions.height.sub y_out).sub h
  | Origin.BottomRight => (layout.dimensions.height.sub y_out).sub h

def translateScale (dimension : Double) (layout : Layout) : Double :=
  dimension.mul layout.scale

def Color.toString (c : Color) (_ : Layout) : String :=
  if c.transparent then "transparent"
  else "rgb(" ++ streamInt c.red ++ "," ++ streamInt c.green ++ "," ++ streamInt c.blue ++ ")"

structure Stroke where
  width : Double
  color : Color
  deriving DecidableEq

/-- Constructor `Stroke()` with both arguments left at their defaults: width
`-1` and `Color::Transparent`. -/
def Stroke.default : Stroke := ⟨Double.ofRat (-1), Color.ofDefaults Defaults.Transparent⟩

def Stroke.toString (s : Stroke) (layout : Layout) : String :=
  -- If stroke width is invalid.
  if s.width.lt (Double.ofRat 0) then ""
  else
    xmlAttribute "stroke-width" (Double.stream (translateScale s.width layout)) ""
      ++ xmlAttribute "stroke" (Color.toString s.color layout) ""

end binary64

/-! ## Coordinate transform: theorems -/

/-- C1: for every layout `L` and all numbers `x` and `w`, `translateX L x w` is
`(x + L.origin_offset.x) * L.scale` when the origin is `TopLeft` or
`BottomLeft`, and `L.dimensions.width - (x + L.origin_offset.x) * L.scale - w`
when the origin is `TopRight` or `BottomRight`. -/
theorem translateX_by_origin (L : Layout) (x w : ℚ) :
    ((L.origin = Origin.TopLeft ∨ L.origin = Origin.BottomLeft) →
        translateX L x w = (x + L.origin_offset.x) * L.scale) ∧
    ((L.origin = Origin.TopRight ∨ L.origin = Origin.BottomRight) →
        translateX L x w = L.dimensions.width - (x + L.origin_offset.x) * L.scale - w) := by
  cases h : L.origin <;> simp [translateX, h]

/-- C1 at a concrete layout: width 100, scale 2, offset (1, 1), origin
`TopRight`, `x = 3`, `w = 4`. -/
theorem translateX_by_origin_witness :
    translateX ⟨⟨100, 50⟩, ⟨900, 900⟩, 2, Origin.TopRight, ⟨1, 1⟩⟩ 3 4
      = 100 - (3 + 1) * 2 - 4 :=
  (translateX_by_origin ⟨⟨100, 50⟩, ⟨900, 900⟩, 2, Origin.TopRight, ⟨1, 1⟩⟩ 3 4).2 (Or.inl rfl)

/-- C2: for every layout `L` and all numbers `y` and `h`, `translateY L y h` is
`(y + L.origin_offset.y) * L.scale` when the origin is `TopLeft` or `TopRight`,
and `L.dimensions.height - (y + L.origin_offset.y) * L.scale - h` when the
origin is `BottomLeft` or `BottomRight`. -/
theorem translateY_by_origin (L : Layout) (y h : ℚ) :
    ((L.origin = Origin.TopLeft ∨ L.origin = Origin.TopRight) →
        translateY L y h = (y + L.origin_offset.y) * L.scale) ∧
    ((L.origin = Origin.BottomLeft ∨ L.origin = Origin.BottomRight) →
        translateY L y h = L.dimensions.height - (y + L.origin_offset.y) * L.scale - h) := by
  cases h : L.origin <;> simp [translateY, h]

/-- C2 at a concrete layout: height 50, scale 2, offset (1, 1), origin
`BottomLeft`, `y = 3`, `h = 4`. -/
theorem translateY_by_origin_witness :
    translateY ⟨⟨100, 50⟩, ⟨900, 900⟩, 2, Origin.BottomLeft, ⟨1, 1⟩⟩ 3 4
      = 50 - (3 + 1) * 2 - 4 :=
  (translateY_by_origin ⟨⟨100, 50⟩, ⟨900, 900⟩, 2, Origin.BottomLeft, ⟨1, 1⟩⟩ 3 4).2 (Or.inl rfl)

/-- C3 (as stated, refuted), in binary64 arithmetic: width 1, scale 1, no
offset, `x = 0.3`, `w = 0.1`.  Under `TopRight` the value is
`(1 - 0.3) - 0.1`, under `TopLeft` it is `0.3`; their sum is the `double` below
`0.9` (written 0.8999999999999999 with 16 digits), while `1 - 0.1` is the
`double` nearest to `0.9`. -/
theorem mirror_sum_is_rounded :
    (binary64.translateX
        ⟨⟨Double.ofRat 1, Double.ofRat 1⟩, ⟨Double.ofRat 1, Double.ofRat 1⟩, Double.ofRat 1,
          Origin.TopRight, ⟨Double.ofRat 0, Double.ofRat 0⟩⟩
        (Double.ofRat (3 / 10)) (Double.ofRat (1 / 10))).add
      (binary64.translateX
        ⟨⟨Double.ofRat 1, Double.ofRat 1⟩, ⟨Double.ofRat 1, Double.ofRat 1⟩, Double.ofRat 1,
          Origin.TopLeft, ⟨Double.ofRat 0, Double.ofRat 0⟩⟩
        (Double.ofRat (3 / 10)) (Double.ofRat (1 / 10)))
      = Double.finite false (8106479329266892 / 9007199254740992) ∧
    (Double.ofRat 1).sub (Double.ofRat (1 / 10))
      = Double.finite false (8106479329266893 / 9007199254740992) ∧
    (binary64.translateX
        ⟨⟨Double.ofRat 1, Double.ofRat 1⟩, ⟨Double.ofRat 1, Double.ofRat 1⟩, Double.ofRat 1,
          Origin.TopRight, ⟨Double.ofRat 0, Double.ofRat 0⟩⟩
        (Double.ofRat (3 / 10)) (Double.ofRat (1 / 10))).add
      (binary64.translateX
        ⟨⟨Double.ofRat 1, Double.ofRat 1⟩, ⟨Double.ofRat 1, Double.ofRat 1⟩, Double.ofRat 1,
          Origin.TopLeft, ⟨Double.ofRat 0, Double.ofRat 0⟩⟩
        (Double.ofRat (3 / 10)) (Double.ofRat (1 / 10)))
      ≠ (Double.ofRat 1).sub (Double.ofRat (1 / 10)) := by
  refine ⟨by decide!, by decide!, by decide!⟩

/-- C3 (amended): in exact arithmetic mirroring is a reflection.  Two layouts
that differ only in their origin are `L` with the origin set to `mx` and to
`nx`; when `mx` is X-mirrored (`TopRight` or `BottomRight`) and `nx` is not
(`TopLeft` or `BottomLeft`), the two exact values of `translateX` at the same
`x` and `w` add up to `dimensions.width - w`; likewise on the vertical axis,
with `my` Y-mirrored (`BottomLeft` or `BottomRight`) and `ny` not (`TopLeft` or
`TopRight`), the two exact values of `translateY` add up to
`dimensions.height - h`.  In binary64 arithmetic the mirrored value is
`(dimensions.width - x') - w`, respectively `(dimensions.height - y') - h`,
computed with rounding from the value `x'`, `y'` under the origin that is not
mirrored. -/
theorem mirror_is_reflection_exact (L : Layout) (D : binary64.Layout) (x w y h : ℚ)
    (xd wd yd hd : Double) (mx nx my ny : Origin)
    (hmx : mx = Origin.TopRight ∨ mx = Origin.BottomRight)
    (hnx : nx = Origin.TopLeft ∨ nx = Origin.BottomLeft)
    (hmy : my = Origin.BottomLeft ∨ my = Origin.BottomRight)
    (hny : ny = Origin.TopLeft ∨ ny = Origin.TopRight) :
    translateX { L with origin := mx } x w + translateX { L with origin := nx } x w
        = L.dimensions.width - w ∧
    translateY { L with origin := my } y h + translateY { L with origin := ny } y h
        = L.dimensions.height - h ∧
    binary64.translateX { D with origin := mx } xd wd
        = (D.dimensions.width.sub (binary64.translateX { D with origin := nx } xd wd)).sub wd ∧
    binary64.translateY { D with origin := my } yd hd
        = (D.dimensions.height.sub (binary64.translateY { D with origin := ny } yd hd)).sub
            hd := by
  rcases hmx with rfl | rfl <;> rcases hnx with rfl | rfl <;>
    rcases hmy with rfl | rfl <;> rcases hny with rfl | rfl <;>
    refine ⟨?_, ?_, rfl, rfl⟩ <;> simp only [translateX, translateY] <;> ring

/-- C3 (amended) at a concrete layout: dimensions 100 by 50, scale 2, offset
(1, 1); `TopRight` against `BottomLeft` on both axes, at `x = 3`, `w = 4`,
`y = 5`, `h = 6`. -/
theorem mirror_is_reflection_exact_witness :
    translateX ⟨⟨100, 50⟩, ⟨900, 900⟩, 2, Origin.TopRight, ⟨1, 1⟩⟩ 3 4
        + translateX ⟨⟨100, 50⟩, ⟨900, 900⟩, 2, Origin.BottomLeft, ⟨1, 1⟩⟩ 3 4 = 100 - 4 ∧
    translateY ⟨⟨100, 50⟩, ⟨900, 900⟩, 2, Origin.BottomLeft, ⟨1, 1⟩⟩ 5 6
        + translateY ⟨⟨100, 50⟩, ⟨900, 900⟩, 2, Origin.TopRight, ⟨1, 1⟩⟩ 5 6 = 50 - 6 :=
  ⟨(mirror_is_reflection_exact ⟨⟨100, 50⟩, ⟨900, 900⟩, 2, Origin.TopLeft, ⟨1, 1⟩⟩
      ⟨⟨Double.ofRat 100, Double.ofRat 50⟩, ⟨Double.ofRat 900, Double.ofRat 900⟩,
        Double.ofRat 2, Origin.TopLeft, ⟨Double.ofRat 1, Double.ofRat 1⟩⟩
      3 4 5 6 (Double.ofRat 3) (Double.ofRat 4) (Double.ofRat 5) (Double.ofRat 6)
      Origin.TopRight Origin.BottomLeft Origin.BottomLeft Origin.TopRight
      (Or.inl rfl) (Or.inr rfl) (Or.inl rfl) (Or.inr rfl)).1,
   (mirror_is_reflection_exact ⟨⟨100, 50⟩, ⟨900, 900⟩, 2, Origin.TopLeft, ⟨1, 1⟩⟩
      ⟨⟨Double.ofRat 100, Double.ofRat 50⟩, ⟨Double.ofRat 900, Double.ofRat 900⟩,
        Double.ofRat 2, Origin.TopLeft, ⟨Double.ofRat 1, Double.ofRat 1⟩⟩
      3 4 5 6 (Double.ofRat 3) (Double.ofRat 4) (Double.ofRat 5) (Double.ofRat 6)
      Origin.TopRight Origin.BottomLeft Origin.BottomLeft Origin.TopRight
      (Or.inl rfl) (Or.inr rfl) (Or.inl rfl) (Or.inr rfl)).2.1⟩

/-! ## Rectangle under mirrored origins -/

/-- The sum of the rendered `x` and `width` values of a rectangle under an
X-mirrored origin, and of `y` and `height` under a Y-mirrored origin: the
mirror image of the logical edge plus `width * (scale - 1)`, respectively
`height * (scale - 1)`, because the length handed to `translateX` and
`translateY` is not scaled. -/
theorem Rectangle.far_edge_sum (L : Layout) (r : Rectangle) :
    ((L.origin = Origin.TopRight ∨ L.origin = Origin.BottomRight) →
      translateX L r.edge.x r.width + translateScale r.width L
        = L.dimensions.width - (r.edge.x + L.origin_offset.x) * L.scale
          + r.width * (L.scale - 1)) ∧
    ((L.origin = Origin.BottomLeft ∨ L.origin = Origin.BottomRight) →
      translateY L r.edge.y r.height + translateScale r.height L
        = L.dimensions.height - (r.edge.y + L.origin_offset.y) * L.scale
          + r.height * (L.scale - 1)) := by
  constructor <;> intro h <;> rcases h with h | h <;>
    simp only [translateX, translateY, translateScale, h] <;> ring

/-- C4 (the code at a failing input): dimensions 100 by 100, origin
`BottomRight`, scale 2, no offset, and `Rectangle((0,0), 10, 10)`.  The
rectangle is rendered with `x = y = 90` and `width = height = 20`, so its far
edges are at `110`, while the mirror image of the logical edge is at
`100 - (0 + 0) * 2 = 100` on both axes. -/
theorem rectangle_far_edge_misaligned :
    (Rectangle.new ⟨0, 0⟩ 10 10 Fill.default Stroke.default).toString
        ⟨⟨100, 100⟩, ⟨100, 100⟩, 2, Origin.BottomRight, ⟨0, 0⟩⟩
      = "\t<rect x=\"90\" y=\"90\" width=\"20\" height=\"20\" fill=\"transparent\" />\n" ∧
    translateX ⟨⟨100, 100⟩, ⟨100, 100⟩, 2, Origin.BottomRight, ⟨0, 0⟩⟩
          (Rectangle.new ⟨0, 0⟩ 10 10 Fill.default Stroke.default).edge.x
          (Rectangle.new ⟨0, 0⟩ 10 10 Fill.default Stroke.default).width
        + translateScale (Rectangle.new ⟨0, 0⟩ 10 10 Fill.default Stroke.default).width
            ⟨⟨100, 100⟩, ⟨100, 100⟩, 2, Origin.BottomRight, ⟨0, 0⟩⟩ = 110 ∧
    translateY ⟨⟨100, 100⟩, ⟨100, 100⟩, 2, Origin.BottomRight, ⟨0, 0⟩⟩
          (Rectangle.new ⟨0, 0⟩ 10 10 Fill.default Stroke.default).edge.y
          (Rectangle.new ⟨0, 0⟩ 10 10 Fill.default Stroke.default).height
        + translateScale (Rectangle.new ⟨0, 0⟩ 10 10 Fill.default Stroke.default).height
            ⟨⟨100, 100⟩, ⟨100, 100⟩, 2, Origin.BottomRight, ⟨0, 0⟩⟩ = 110 ∧
    (100 : ℚ) - ((Rectangle.new ⟨0, 0⟩ 10 10 Fill.default Stroke.default).edge.x + 0) * 2 = 100 ∧
    (100 : ℚ) - ((Rectangle.new ⟨0, 0⟩ 10 10 Fill.default Stroke.default).edge.y + 0) * 2 = 100 := by
  refine ⟨by decide!, ?_, ?_, ?_, ?_⟩ <;>
    norm_num [translateX, translateY, translateScale, Rectangle.new]

/-! ## Circle and the document body -/

theorem Stroke.default_toString (L : Layout) : Stroke.default.toString L = "" := by
  simp [Stroke.toString, Stroke.default]

/-- C5: under a layout with origin `TopLeft`, scale 1 and zero offset, a circle
built with the default stroke renders as one `circle` element whose attributes
are, in order, `cx = center.x`, `cy = center.y`, `r = diameter / 2` and the fill
attribute, with no stroke attribute.  In particular a document without body
whose layout is `Layout((100,100), (100,100), TopLeft, 1)` takes
`Circle((10,10), 4, Fill(Color::Red))`, and its body is then the one fragment
`<circle cx="10" cy="10" r="2" fill="rgb(255,0,0)" />`, written between the tab
of `elemStart` and the line end of `emptyElemEnd`. -/
theorem circle_render_plain :
    (∀ (L : Layout) (center : Point) (diameter : ℚ) (fill : Fill),
      L.origin = Origin.TopLeft → L.scale = 1 → L.origin_offset = ⟨0, 0⟩ →
      (Circle.new center diameter fill Stroke.default).toString L
        = elemStart "circle" ++ xmlAttribute "cx" (streamDouble center.x) ""
            ++ xmlAttribute "cy" (streamDouble center.y) ""
            ++ xmlAttribute "r" (streamDouble (diameter / 2)) ""
            ++ fill.toString L ++ emptyElemEnd) ∧
    (∀ d : Document,
      d.layout = ⟨⟨100, 100⟩, ⟨100, 100⟩, 1, Origin.TopLeft, ⟨0, 0⟩⟩ → d.body_nodes_str = "" →
      ∃ d1 : Document,
        d.push (Shape.circle (Circle.new ⟨10, 10⟩ 4 (Fill.ofDefaults Defaults.Red) Stroke.default))
          = Except.ok d1 ∧
        d1.body_nodes_str
          = "\t" ++ "<circle cx=\"10\" cy=\"10\" r=\"2\" fill=\"rgb(255,0,0)\" />" ++ "\n" ∧
        d1.toString = Document.header d.layout
          ++ ("\t" ++ "<circle cx=\"10\" cy=\"10\" r=\"2\" fill=\"rgb(255,0,0)\" />" ++ "\n")
          ++ "</svg>\n") := by
  constructor
  · intro L center diameter fill hO hs hoff
    simp [Circle.toString, Circle.new, translateX, translateY, translateScale, hO, hs, hoff,
      Stroke.default_toString]
  · intro d hL hB
    have hfrag : (Circle.new ⟨10, 10⟩ 4 (Fill.ofDefaults Defaults.Red) Stroke.default).toString
        ⟨⟨100, 100⟩, ⟨100, 100⟩, 1, Origin.TopLeft, ⟨0, 0⟩⟩
        = "\t" ++ "<circle cx=\"10\" cy=\"10\" r=\"2\" fill=\"rgb(255,0,0)\" />" ++ "\n" := by
      decide!
    have hend : elemEnd "svg" = "</svg>\n" := by decide
    refine ⟨{ d with body_nodes_str := d.body_nodes_str
        ++ (Circle.new ⟨10, 10⟩ 4 (Fill.ofDefaults Defaults.Red) Stroke.default).toString d.layout },
      rfl, ?_, ?_⟩
    · rw [hL, hfrag, hB]; rfl
    · simp only [Document.toString, hL, hfrag, hB, hend]; rfl

/-- C5 at the document built on a good stream with the layout of the claim. -/
theorem circle_render_plain_witness :
    ∃ d1 : Document,
      (Document.ofStream ⟨true, true, ""⟩ ⟨⟨100, 100⟩, ⟨100, 100⟩, 1, Origin.TopLeft, ⟨0, 0⟩⟩).push
          (Shape.circle (Circle.new ⟨10, 10⟩ 4 (Fill.ofDefaults Defaults.Red) Stroke.default))
        = Except.ok d1 ∧
      d1.body_nodes_str
        = "\t" ++ "<circle cx=\"10\" cy=\"10\" r=\"2\" fill=\"rgb(255,0,0)\" />" ++ "\n" ∧
      d1.toString = Document.header ⟨⟨100, 100⟩, ⟨100, 100⟩, 1, Origin.TopLeft, ⟨0, 0⟩⟩
        ++ ("\t" ++ "<circle cx=\"10\" cy=\"10\" r=\"2\" fill=\"rgb(255,0,0)\" />" ++ "\n")
        ++ "</svg>\n" :=
  circle_render_plain.2 _ rfl rfl

/-! ## The envelope -/

/-- A string written as `a ++ n ++ b` contains `n`. -/
theorem String.data_infix_of_eq_append {s a n b : String} (h : s = a ++ n ++ b) :
    n.data <:+: s.data :=
  ⟨a.data, b.data, by rw [h]; simp⟩

/-- The whole serialization, with the constant attributes written out: what
precedes the `viewBox` attribute, the attribute, what follows it. -/
theorem Document.toString_parts (d : Document) :
    d.toString =
      ("<?xml version=\"1.0\" standalone=\"no\" ?>\n"
        ++ "<!DOCTYPE svg PUBLIC \"-//W3C//DTD SVG 1.1//EN\" "
        ++ "\"http://www.w3.org/Graphics/SVG/1.1/DTD/svg11.dtd\">\n"
        ++ "<svg " ++ xmlAttribute "width" (streamDouble d.layout.window.width) "px"
        ++ xmlAttribute "height" (streamDouble d.layout.window.height) "px")
      ++ ("viewBox=\"0 0 " ++ to_string d.layout.dimensions.width ++ " "
            ++ to_string d.layout.dimensions.height ++ "\"")
      ++ (" preserveAspectRatio=\"xMinYMin meet\" xmlns=\"http://www.w3.org/2000/svg\" "
        ++ "version=\"1.1\" >\n" ++ d.body_nodes_str ++ "</svg>\n") := by
  simp only [Document.toString, Document.header, xmlAttribute, elemEnd, String.append_assoc]
  apply String.ext
  simp

/-- The text of `std::to_string` is an optional minus sign, integer digits, a
decimal point and exactly six fraction digits. -/
theorem to_string_six_decimals (v : ℚ) :
    ∃ ip frac : List Char,
      (to_string v).data = (if v < 0 then ['-'] else []) ++ ip ++ '.' :: frac ∧
      frac.length = 6 := by
  refine ⟨decimalDigits (roundHalfEven (v.num.natAbs * 10 ^ 6) v.den / 10 ^ 6),
    padLeftZeros 6 (decimalDigits (roundHalfEven (v.num.natAbs * 10 ^ 6) v.den % 10 ^ 6)),
    by simp [to_string], ?_⟩
  have hlt : roundHalfEven (v.num.natAbs * 10 ^ 6) v.den % 10 ^ 6 < 10 ^ 6 :=
    Nat.mod_lt _ (by norm_num)
  have hlen := Nat.toDigitsCore_length 10 (by decide)
    (roundHalfEven (v.num.natAbs * 10 ^ 6) v.den % 10 ^ 6 + 1)
    (roundHalfEven (v.num.natAbs * 10 ^ 6) v.den % 10 ^ 6) 6 hlt (by decide)
  simp only [padLeftZeros, decimalDigits, Nat.toDigits, List.length_append, List.length_replicate]
  omega

/-- C6 (as stated, refuted): the document with dimensions and window
`(100,100)`, origin `TopLeft`, scale 1 and no shape does not contain
`viewBox="0 0 100 100"`: the two numbers of the view box are written by
`std::to_string`, as `100.000000`, while the `width` attribute of the same tag
is written by the stream, as `100`. -/
theorem viewBox_not_in_stream_format :
    ¬ ("viewBox=\"0 0 100 100\"".data <:+:
        (Document.ofStream ⟨true, true, ""⟩
          ⟨⟨100, 100⟩, ⟨100, 100⟩, 1, Origin.TopLeft, ⟨0, 0⟩⟩).toString.data) ∧
    "<svg width=\"100px\" height=\"100px\" viewBox=\"0 0 100.000000 100.000000\" ".data <:+:
        (Document.ofStream ⟨true, true, ""⟩
          ⟨⟨100, 100⟩, ⟨100, 100⟩, 1, Origin.TopLeft, ⟨0, 0⟩⟩).toString.data := by
  constructor <;> decide!

/-- C6 (amended): for every document the serialized text carries, inside the
`svg` tag and after the `width` and `height` attributes, a `viewBox` attribute
whose value is `0 0 `, `std::to_string(dimensions.width)`, a blank and
`std::to_string(dimensions.height)`, that is the two numbers in fixed notation
with six decimals and not in the stream format of the other numeric
attributes; with dimensions `(100,100)` the text contains
`viewBox="0 0 100.000000 100.000000"`. -/
theorem viewBox_in_fixed_notation (d : Document) :
    (∃ before after : String,
      d.toString = before
        ++ ("viewBox=\"0 0 " ++ to_string d.layout.dimensions.width ++ " "
            ++ to_string d.layout.dimensions.height ++ "\"")
        ++ after ∧
      before = "<?xml version=\"1.0\" standalone=\"no\" ?>\n"
        ++ "<!DOCTYPE svg PUBLIC \"-//W3C//DTD SVG 1.1//EN\" "
        ++ "\"http://www.w3.org/Graphics/SVG/1.1/DTD/svg11.dtd\">\n"
        ++ "<svg " ++ xmlAttribute "width" (streamDouble d.layout.window.width) "px"
        ++ xmlAttribute "height" (streamDouble d.layout.window.height) "px") ∧
    (∀ v : ℚ, ∃ ip frac : List Char,
      (to_string v).data = (if v < 0 then ['-'] else []) ++ ip ++ '.' :: frac ∧
      frac.length = 6) ∧
    (d.layout.dimensions = ⟨100, 100⟩ →
      "viewBox=\"0 0 100.000000 100.000000\"".data <:+: d.toString.data) := by
  refine ⟨⟨_, _, Document.toString_parts d, rfl⟩, to_string_six_decimals, ?_⟩
  intro h
  have h100 : to_string 100 = "100.000000" := by decide!
  have hlit : "viewBox=\"0 0 " ++ "100.000000" ++ " " ++ "100.000000" ++ "\""
      = "viewBox=\"0 0 100.000000 100.000000\"" := by decide
  have hd := Document.toString_parts d
  rw [h, h100, hlit] at hd
  exact String.data_infix_of_eq_append hd

/-! ## Appending to a document -/

/-- Rendering one of the seven primitive shapes never throws. -/
theorem Shape.toString_primitive_ok (L : Layout) :
    (∀ s : Circle, (Shape.circle s).toString L = Except.ok (s.toString L)) ∧
    (∀ s : Elipse, (Shape.elipse s).toString L = Except.ok (s.toString L)) ∧
    (∀ s : Rectangle, (Shape.rectangle s).toString L = Except.ok (s.toString L)) ∧
    (∀ s : Line, (Shape.line s).toString L = Except.ok (s.toString L)) ∧
    (∀ s : Polygon, (Shape.polygon s).toString L = Except.ok (s.toString L)) ∧
    (∀ s : Polyline, (Shape.polyline s).toString L = Except.ok (s.toString L)) ∧
    (∀ s : Text, (Shape.text s).toString L = Except.ok (s.toString L)) :=
  ⟨fun _ => rfl, fun _ => rfl, fun _ => rfl, fun _ => rfl, fun _ => rfl, fun _ => rfl,
    fun _ => rfl⟩

/-- One `operator<<` whose shape renders to `f` adds `f` to the body and
changes nothing else. -/
theorem Document.push_ok (d : Document) (s : Shape) (f : String)
    (h : s.toString d.layout = Except.ok f) :
    d.push s = Except.ok { d with body_nodes_str := d.body_nodes_str ++ f } := by
  simp [Document.push, h]

/-- A successful `operator<<` keeps the layout and the stream, and the body
grows by the rendering of the shape. -/
theorem Document.push_inv (d d1 : Document) (s : Shape) (h : d.push s = Except.ok d1) :
    ∃ f, s.toString d.layout = Except.ok f ∧
      d1 = { d with body_nodes_str := d.body_nodes_str ++ f } := by
  unfold Document.push at h
  cases hs : s.toString d.layout with
  | error e => rw [hs] at h; cases h
  | ok f =>
    rw [hs] at h
    refine ⟨f, rfl, ?_⟩
    have h1 : (Except.ok { d with body_nodes_str := d.body_nodes_str ++ f } :
        Except Exception Document) = Except.ok d1 := h
    injection h1 with h2
    exact h2.symm

/-- Successive `operator<<` calls whose shapes render to `frags` add the
fragments to the body in order. -/
theorem Document.pushAll_ok (L : Layout) (shapes : List Shape) (frags : List String)
    (h : List.Forall₂ (fun s f => Shape.toString s L = Except.ok f) shapes frags) :
    ∀ d : Document, d.layout = L →
      d.pushAll shapes
        = Except.ok { d with body_nodes_str := d.body_nodes_str ++ String.join frags } := by
  induction h with
  | nil =>
    intro d _
    have hj : d.body_nodes_str ++ String.join [] = d.body_nodes_str := by
      apply String.ext; simp
    rw [hj]
    rfl
  | @cons s f ss fs hsf _ ih =>
    intro d hd
    subst hd
    have hstep := Document.push_ok d s f hsf
    have hj : d.body_nodes_str ++ String.join (f :: fs)
        = (d.body_nodes_str ++ f) ++ String.join fs := by
      apply String.ext; simp
    have := ih { d with body_nodes_str := d.body_nodes_str ++ f } rfl
    simp only [Document.pushAll, List.foldlM_cons, hstep] at this ⊢
    rw [hj]
    exact this

/-- C7: let `d` be a document with layout `L` and `shapes` a finite sequence of
shapes whose renderings against `L` are the texts `frags`.  Appending the
shapes in that order succeeds, leaves the layout as it was, and the body is
the old body followed by the fragments in append order; `Document::toString`
is then the header determined by `L`, that body, and `</svg>` with a line end
(for a document that had no body: the header, the fragments, the closing tag).
Moreover every single successful append keeps the layout and the old body is
an initial segment of the new body. -/
theorem document_toString_after_appends (d : Document) (shapes : List Shape)
    (frags : List String)
    (h : List.Forall₂ (fun s f => Shape.toString s d.layout = Except.ok f) shapes frags) :
    ∃ d1 : Document,
      d.pushAll shapes = Except.ok d1 ∧
      d1.layout = d.layout ∧
      d1.body_nodes_str = d.body_nodes_str ++ String.join frags ∧
      d1.toString
        = Document.header d.layout ++ (d.body_nodes_str ++ String.join frags) ++ "</svg>\n" ∧
      (d.body_nodes_str = "" →
        d1.toString = Document.header d.layout ++ String.join frags ++ "</svg>\n") ∧
      (∀ (e e1 : Document) (s : Shape), e.push s = Except.ok e1 →
        e1.layout = e.layout ∧
        (∃ f, s.toString e.layout = Except.ok f ∧ e1.body_nodes_str = e.body_nodes_str ++ f) ∧
        e.body_nodes_str.data <+: e1.body_nodes_str.data) := by
  have hend : elemEnd "svg" = "</svg>\n" := by decide
  refine ⟨_, Document.pushAll_ok d.layout shapes frags h d rfl, rfl, rfl, ?_, ?_, ?_⟩
  · simp only [Document.toString, hend]
  · intro hb
    simp only [Document.toString, hend, hb]
    apply String.ext
    simp
  · intro e e1 s hpush
    obtain ⟨f, hf, he1⟩ := Document.push_inv e e1 s hpush
    subst he1
    exact ⟨rfl, ⟨f, hf, rfl⟩, ⟨f.data, by simp⟩⟩

/-- C7 at a concrete document: a circle and then a line appended to a document
without body on a `TopLeft` layout of 100 by 100. -/
theorem document_toString_after_appends_witness :
    ∃ d1 : Document,
      (Document.ofStream ⟨true, true, ""⟩
          ⟨⟨100, 100⟩, ⟨100, 100⟩, 1, Origin.TopLeft, ⟨0, 0⟩⟩).pushAll
        [Shape.circle (Circle.new ⟨10, 10⟩ 4 (Fill.ofDefaults Defaults.Red) Stroke.default),
         Shape.line (Line.new ⟨0, 0⟩ ⟨5, 5⟩ ⟨1, Color.ofDefaults Defaults.Black⟩)]
        = Except.ok d1 ∧
      d1.toString = Document.header ⟨⟨100, 100⟩, ⟨100, 100⟩, 1, Origin.TopLeft, ⟨0, 0⟩⟩
        ++ String.join
          [(Circle.new ⟨10, 10⟩ 4 (Fill.ofDefaults Defaults.Red) Stroke.default).toString
              ⟨⟨100, 100⟩, ⟨100, 100⟩, 1, Origin.TopLeft, ⟨0, 0⟩⟩,
           (Line.new ⟨0, 0⟩ ⟨5, 5⟩ ⟨1, Color.ofDefaults Defaults.Black⟩).toString
              ⟨⟨100, 100⟩, ⟨100, 100⟩, 1, Origin.TopLeft, ⟨0, 0⟩⟩]
        ++ "</svg>\n" := by
  obtain ⟨d1, h1, _, _, _, h5, _⟩ :=
    document_toString_after_appends
      (Document.ofStream ⟨true, true, ""⟩ ⟨⟨100, 100⟩, ⟨100, 100⟩, 1, Origin.TopLeft, ⟨0, 0⟩⟩)
      [Shape.circle (Circle.new ⟨10, 10⟩ 4 (Fill.ofDefaults Defaults.Red) Stroke.default),
       Shape.line (Line.new ⟨0, 0⟩ ⟨5, 5⟩ ⟨1, Color.ofDefaults Defaults.Black⟩)]
      [(Circle.new ⟨10, 10⟩ 4 (Fill.ofDefaults Defaults.Red) Stroke.default).toString
          ⟨⟨100, 100⟩, ⟨100, 100⟩, 1, Origin.TopLeft, ⟨0, 0⟩⟩,
       (Line.new ⟨0, 0⟩ ⟨5, 5⟩ ⟨1, Color.ofDefaults Defaults.Black⟩).toString
          ⟨⟨100, 100⟩, ⟨100, 100⟩, 1, Origin.TopLeft, ⟨0, 0⟩⟩]
      (List.Forall₂.cons rfl (List.Forall₂.cons rfl List.Forall₂.nil))
  exact ⟨d1, h1, h5 rfl⟩

/-! ## Stroke -/

/-- An attribute followed by any text is never the empty string. -/
theorem xmlAttribute_append_ne_empty (n v u rest : String) : xmlAttribute n v u ++ rest ≠ "" := by
  intro h
  have h1 := congrArg String.length h
  simp only [xmlAttribute, String.length_append] at h1
  have h2 : "=\"".length = 2 := by decide
  have h3 : "".length = 0 := by decide
  omega

/-- The literal `0` as a `double` is the zero with the sign bit clear, and it is
not below itself. -/
theorem Double.zero_facts :
    Double.ofRat 0 = Double.finite false 0 ∧
    (Double.ofRat 0).lt (Double.ofRat 0) = false := by
  constructor <;> decide!

/-- The product of the literal `0` and a finite scale is a zero that carries
the sign of the scale. -/
theorem Double.zero_mul_finite (s : Bool) (m : ℚ) :
    (Double.ofRat 0).mul (Double.finite s m) = Double.finite s 0 := by
  rw [Double.zero_facts.1]
  simp [Double.mul, Double.round]

/-- C8 (as stated, refuted): under a layout whose scale is `-1`, the stroke of
width `0` (and transparent colour) is written with `stroke-width="-0"`, because
`0.0 * -1.0` is `-0.0` and `0.0 < 0` is false; the text does not contain
`stroke-width="0"`. -/
theorem stroke_zero_negative_scale :
    (binary64.Stroke.mk (Double.ofRat 0) (Color.ofDefaults Defaults.Transparent)).toString
        ⟨⟨Double.ofRat 100, Double.ofRat 100⟩, ⟨Double.ofRat 100, Double.ofRat 100⟩,
          Double.ofRat (-1), Origin.TopLeft, ⟨Double.ofRat 0, Double.ofRat 0⟩⟩
      = "stroke-width=\"-0\" stroke=\"transparent\" " ∧
    ¬ ("stroke-width=\"0\"".data <:+:
      ((binary64.Stroke.mk (Double.ofRat 0)
          (Color.ofDefaults Defaults.Transparent)).toString
        ⟨⟨Double.ofRat 100, Double.ofRat 100⟩, ⟨Double.ofRat 100, Double.ofRat 100⟩,
          Double.ofRat (-1), Origin.TopLeft, ⟨Double.ofRat 0, Double.ofRat 0⟩⟩).data) := by
  constructor <;> decide!

/-- C8 (amended), in binary64 arithmetic: for every layout `L` and every
`Stroke(width, color)`, the rendering is the empty string exactly when
`width < 0`; otherwise, the product `width * L.scale` being a number, it is the
`stroke-width` attribute carrying that product followed by the `stroke`
attribute carrying the rendering of the colour (the text written for a product
that is a NaN is left open).  A stroke of width `0` renders, for every layout,
to a non-empty text; that text contains `stroke-width="0"` when the scale is
finite with the sign bit clear, and it starts with `stroke-width="-0"` when the
scale is finite with the sign bit set.  The default stroke (width `-1`) renders
to the empty text. -/
theorem stroke_toString_binary64 (L : binary64.Layout) (width : Double) (color : Color) :
    ((binary64.Stroke.mk width color).toString L = "" ↔ width.lt (Double.ofRat 0) = true) ∧
    (width.lt (Double.ofRat 0) = false → width.mul L.scale ≠ Double.nan →
      (binary64.Stroke.mk width color).toString L
        = xmlAttribute "stroke-width" (Double.stream (width.mul L.scale)) ""
          ++ xmlAttribute "stroke" (binary64.Color.toString color L) "") ∧
    (binary64.Stroke.mk (Double.ofRat 0) color).toString L ≠ "" ∧
    (∀ m : ℚ, L.scale = Double.finite false m →
      "stroke-width=\"0\"".data <:+:
        ((binary64.Stroke.mk (Double.ofRat 0) color).toString L).data) ∧
    (∀ m : ℚ, L.scale = Double.finite true m →
      (binary64.Stroke.mk (Double.ofRat 0) color).toString L
        = "stroke-width=\"-0\" " ++ xmlAttribute "stroke" (binary64.Color.toString color L) "") ∧
    (binary64.Stroke.default.width = Double.finite true 1 ∧
      binary64.Stroke.default.toString L = "") := by
  refine ⟨?_, ?_, ?_, ?_, ?_, ?_, ?_⟩
  · cases hw : width.lt (Double.ofRat 0)
    · simp only [binary64.Stroke.toString, hw, Bool.false_eq_true, if_false, iff_false]
      exact xmlAttribute_append_ne_empty _ _ _ _
    · simp [binary64.Stroke.toString, hw]
  · intro hw _
    simp [binary64.Stroke.toString, hw, binary64.translateScale]
  · simp only [binary64.Stroke.toString, Double.zero_facts.2, Bool.false_eq_true, if_false]
    exact xmlAttribute_append_ne_empty _ _ _ _
  · intro m hm
    have hs : (binary64.Stroke.mk (Double.ofRat 0) color).toString L
        = "" ++ "stroke-width=\"0\""
          ++ (" " ++ xmlAttribute "stroke" (binary64.Color.toString color L) "") := by
      simp only [binary64.Stroke.toString, Double.zero_facts.2, Bool.false_eq_true, if_false,
        binary64.translateScale, hm, Double.zero_mul_finite, Double.stream, xmlAttribute]
      have h0 : streamDouble 0 = "0" := by simp [streamDouble]
      rw [h0]
      apply String.ext
      simp
    exact String.data_infix_of_eq_append hs
  · intro m hm
    simp only [binary64.Stroke.toString, Double.zero_facts.2, Bool.false_eq_true, if_false,
      binary64.translateScale, hm, Double.zero_mul_finite, Double.stream, xmlAttribute]
    have h0 : streamDouble 0 = "0" := by simp [streamDouble]
    rw [h0]
    apply String.ext
    simp
  · decide!
  · have hlt : (Double.ofRat (-1)).lt (Double.ofRat 0) = true := by decide!
    simp [binary64.Stroke.toString, binary64.Stroke.default, hlt]

/-- C8 (amended) at a concrete stroke: width 3 in black on a layout of scale
2, in binary64 arithmetic. -/
theorem stroke_toString_binary64_witness :
    (binary64.Stroke.mk (Double.ofRat 3) (Color.ofDefaults Defaults.Black)).toString
        ⟨⟨Double.ofRat 100, Double.ofRat 100⟩, ⟨Double.ofRat 100, Double.ofRat 100⟩,
          Double.ofRat 2, Origin.TopLeft, ⟨Double.ofRat 0, Double.ofRat 0⟩⟩
      = xmlAttribute "stroke-width"
          (Double.stream ((Double.ofRat 3).mul (Double.ofRat 2))) ""
        ++ xmlAttribute "stroke"
          (binary64.Color.toString (Color.ofDefaults Defaults.Black)
            ⟨⟨Double.ofRat 100, Double.ofRat 100⟩, ⟨Double.ofRat 100, Double.ofRat 100⟩,
              Double.ofRat 2, Origin.TopLeft, ⟨Double.ofRat 0, Double.ofRat 0⟩⟩) "" :=
  (stroke_toString_binary64
    ⟨⟨Double.ofRat 100, Double.ofRat 100⟩, ⟨Double.ofRat 100, Double.ofRat 100⟩,
      Double.ofRat 2, Origin.TopLeft, ⟨Double.ofRat 0, Double.ofRat 0⟩⟩ (Double.ofRat 3)
    (Color.ofDefaults Defaults.Black)).2.1 (by decide!) (by decide!)

/-- The stroke of the example above, evaluated: width 3 at scale 2 is written
as 6. -/
theorem stroke_example_evaluated :
    (binary64.Stroke.mk (Double.ofRat 3) (Color.ofDefaults Defaults.Black)).toString
        ⟨⟨Double.ofRat 100, Double.ofRat 100⟩, ⟨Double.ofRat 100, Double.ofRat 100⟩,
          Double.ofRat 2, Origin.TopLeft, ⟨Double.ofRat 0, Double.ofRat 0⟩⟩
      = "stroke-width=\"6\" stroke=\"rgb(0,0,0)\" " := by
  decide!

/-! ## Offset and render -/

/-- Pushing points one after the other stores them after the points already
held and changes nothing else. -/
theorem polygon_foldl_push (pts : List Point) :
    ∀ pg : Polygon, pts.foldl Polygon.push pg = { pg with points := pg.points ++ pts } := by
  induction pts with
  | nil => intro pg; simp
  | cons p ps ih => intro pg; simp [List.foldl_cons, ih, Polygon.push]

theorem polyline_foldl_push (pts : List Point) :
    ∀ pl : Polyline, pts.foldl Polyline.push pl = { pl with points := pl.points ++ pts } := by
  induction pts with
  | nil => intro pl; simp
  | cons p ps ih => intro pl; simp [List.foldl_cons, ih, Polyline.push]

/-- C9: for each of the seven primitive shapes, every offset `(dx, dy)` and
every layout `L`, calling `offset((dx, dy))` on the shape built from given
constructor arguments (and, for polygons and polylines, given pushed points)
and rendering it with `L` gives the text of rendering the shape built from the
same arguments with every stored coordinate shifted by `(dx, dy)`: the centre
of a circle or ellipse, the edge of a rectangle, both end points of a line,
every point of a polygon or polyline, the origin of a text.  Radii, widths,
heights, fill, stroke, font and content are unchanged by `offset`. -/
theorem offset_then_render (L : Layout) (dx dy : ℚ) :
    (∀ (c : Point) (d : ℚ) (f : Fill) (s : Stroke),
      ((Circle.new c d f s).offset ⟨dx, dy⟩).toString L
        = (Circle.new ⟨c.x + dx, c.y + dy⟩ d f s).toString L) ∧
    (∀ (c : Point) (w h : ℚ) (f : Fill) (s : Stroke),
      ((Elipse.new c w h f s).offset ⟨dx, dy⟩).toString L
        = (Elipse.new ⟨c.x + dx, c.y + dy⟩ w h f s).toString L) ∧
    (∀ (e : Point) (w h : ℚ) (f : Fill) (s : Stroke),
      ((Rectangle.new e w h f s).offset ⟨dx, dy⟩).toString L
        = (Rectangle.new ⟨e.x + dx, e.y + dy⟩ w h f s).toString L) ∧
    (∀ (p q : Point) (s : Stroke),
      ((Line.new p q s).offset ⟨dx, dy⟩).toString L
        = (Line.new ⟨p.x + dx, p.y + dy⟩ ⟨q.x + dx, q.y + dy⟩ s).toString L) ∧
    (∀ (f : Fill) (s : Stroke) (pts : List Point),
      ((pts.foldl Polygon.push (Polygon.new f s)).offset ⟨dx, dy⟩).toString L
        = ((pts.map (fun p => (⟨p.x + dx, p.y + dy⟩ : Point))).foldl Polygon.push
            (Polygon.new f s)).toString L) ∧
    (∀ (s : Stroke) (pts : List Point),
      ((pts.foldl Polygon.push (Polygon.ofStroke s)).offset ⟨dx, dy⟩).toString L
        = ((pts.map (fun p => (⟨p.x + dx, p.y + dy⟩ : Point))).foldl Polygon.push
            (Polygon.ofStroke s)).toString L) ∧
    (∀ (f : Fill) (s : Stroke) (pts : List Point),
      ((pts.foldl Polyline.push (Polyline.new f s)).offset ⟨dx, dy⟩).toString L
        = ((pts.map (fun p => (⟨p.x + dx, p.y + dy⟩ : Point))).foldl Polyline.push
            (Polyline.new f s)).toString L) ∧
    (∀ (s : Stroke) (pts : List Point),
      ((pts.foldl Polyline.push (Polyline.ofStroke s)).offset ⟨dx, dy⟩).toString L
        = ((pts.map (fun p => (⟨p.x + dx, p.y + dy⟩ : Point))).foldl Polyline.push
            (Polyline.ofStroke s)).toString L) ∧
    (∀ (pts0 : List Point) (f : Fill) (s : Stroke) (pts : List Point),
      ((pts.foldl Polyline.push (Polyline.ofPoints pts0 f s)).offset ⟨dx, dy⟩).toString L
        = ((pts.map (fun p => (⟨p.x + dx, p.y + dy⟩ : Point))).foldl Polyline.push
            (Polyline.ofPoints (pts0.map (fun p => (⟨p.x + dx, p.y + dy⟩ : Point))) f s)).toString
              L) ∧
    (∀ (o : Point) (content : String) (f : Fill) (font : Font) (s : Stroke),
      ((Text.new o content f font s).offset ⟨dx, dy⟩).toString L
        = (Text.new ⟨o.x + dx, o.y + dy⟩ content f font s).toString L) ∧
    (∀ c : Circle, (c.offset ⟨dx, dy⟩).radius = c.radius ∧
      (c.offset ⟨dx, dy⟩).fill = c.fill ∧ (c.offset ⟨dx, dy⟩).stroke = c.stroke) ∧
    (∀ e : Elipse, (e.offset ⟨dx, dy⟩).radius_width = e.radius_width ∧
      (e.offset ⟨dx, dy⟩).radius_height = e.radius_height ∧
      (e.offset ⟨dx, dy⟩).fill = e.fill ∧ (e.offset ⟨dx, dy⟩).stroke = e.stroke) ∧
    (∀ r : Rectangle, (r.offset ⟨dx, dy⟩).width = r.width ∧
      (r.offset ⟨dx, dy⟩).height = r.height ∧
      (r.offset ⟨dx, dy⟩).fill = r.fill ∧ (r.offset ⟨dx, dy⟩).stroke = r.stroke) ∧
    (∀ l : Line, (l.offset ⟨dx, dy⟩).fill = l.fill ∧ (l.offset ⟨dx, dy⟩).stroke = l.stroke) ∧
    (∀ pg : Polygon, (pg.offset ⟨dx, dy⟩).fill = pg.fill ∧
      (pg.offset ⟨dx, dy⟩).stroke = pg.stroke ∧
      (pg.offset ⟨dx, dy⟩).points.length = pg.points.length) ∧
    (∀ pl : Polyline, (pl.offset ⟨dx, dy⟩).fill = pl.fill ∧
      (pl.offset ⟨dx, dy⟩).stroke = pl.stroke ∧
      (pl.offset ⟨dx, dy⟩).points.length = pl.points.length) ∧
    (∀ t : Text, (t.offset ⟨dx, dy⟩).content = t.content ∧ (t.offset ⟨dx, dy⟩).font = t.font ∧
      (t.offset ⟨dx, dy⟩).fill = t.fill ∧ (t.offset ⟨dx, dy⟩).stroke = t.stroke) := by
  refine ⟨fun _ _ _ _ => rfl, fun _ _ _ _ _ => rfl, fun _ _ _ _ _ => rfl, fun _ _ _ => rfl,
    ?_, ?_, ?_, ?_, ?_, fun _ _ _ _ _ => rfl, fun _ => ⟨rfl, rfl, rfl⟩,
    fun _ => ⟨rfl, rfl, rfl, rfl⟩, fun _ => ⟨rfl, rfl, rfl, rfl⟩, fun _ => ⟨rfl, rfl⟩,
    fun _ => ⟨rfl, rfl, by simp [Polygon.offset, offsetPoints]⟩,
    fun _ => ⟨rfl, rfl, by simp [Polyline.offset, offsetPoints]⟩,
    fun _ => ⟨rfl, rfl, rfl, rfl⟩⟩
  · intro f s pts
    simp [polygon_foldl_push, Polygon.offset, Polygon.new, offsetPoints]
  · intro s pts
    simp [polygon_foldl_push, Polygon.offset, Polygon.ofStroke, offsetPoints]
  · intro f s pts
    simp [polyline_foldl_push, Polyline.offset, Polyline.new, offsetPoints]
  · intro s pts
    simp [polyline_foldl_push, Polyline.offset, Polyline.ofStroke, offsetPoints]
  · intro pts0 f s pts
    simp [polyline_foldl_push, Polyline.offset, Polyline.ofPoints, offsetPoints]

/-! ## Appending to a line chart -/

/-- C10: for every line chart `c` (holding polylines or not), every polyline
`p` and every layout `L`: when `p` has zero points, appending it is a no-op,
the chart and its stored list are unchanged and the rendering of `c << p`
(a text or a thrown exception) is the rendering of `c`; when `p` has at least
one point, the stored list grows by exactly `p` at its end and nothing else
of the chart changes. -/
theorem lineChart_push_spec (c : LineChart) (p : Polyline) (L : Layout) :
    (p.points = [] →
      c.push p = c ∧ (c.push p).polylines = c.polylines ∧
      (c.push p).toString L = c.toString L) ∧
    (p.points ≠ [] →
      (c.push p).polylines = c.polylines ++ [p] ∧
      (c.push p).polylines.length = c.polylines.length + 1 ∧
      c.push p = { c with polylines := c.polylines ++ [p] }) := by
  constructor
  · intro h
    have hc : c.push p = c := by simp [LineChart.push, h]
    rw [hc]
    exact ⟨rfl, rfl, rfl⟩
  · intro h
    have hc : c.push p = { c with polylines := c.polylines ++ [p] } := by
      simp [LineChart.push, h]
    rw [hc]
    exact ⟨rfl, by simp, rfl⟩

/-- C10 at a concrete chart: a chart holding one polyline, to which a polyline
without points and then a polyline with one point are appended. -/
theorem lineChart_push_spec_witness :
    (((LineChart.new ⟨0, 0⟩ 1 ⟨1 / 2, Color.ofDefaults Defaults.Purple⟩).push
        (Polyline.ofPoints [⟨0, 0⟩, ⟨1, 2⟩] Fill.default Stroke.default)).push
        (Polyline.new Fill.default Stroke.default)).toString
          ⟨⟨100, 100⟩, ⟨100, 100⟩, 1, Origin.BottomLeft, ⟨0, 0⟩⟩
      = ((LineChart.new ⟨0, 0⟩ 1 ⟨1 / 2, Color.ofDefaults Defaults.Purple⟩).push
        (Polyline.ofPoints [⟨0, 0⟩, ⟨1, 2⟩] Fill.default Stroke.default)).toString
          ⟨⟨100, 100⟩, ⟨100, 100⟩, 1, Origin.BottomLeft, ⟨0, 0⟩⟩ ∧
    (((LineChart.new ⟨0, 0⟩ 1 ⟨1 / 2, Color.ofDefaults Defaults.Purple⟩).push
        (Polyline.ofPoints [⟨0, 0⟩, ⟨1, 2⟩] Fill.default Stroke.default)).push
        (Polyline.ofPoints [⟨3, 4⟩] Fill.default Stroke.default)).polylines
      = ((LineChart.new ⟨0, 0⟩ 1 ⟨1 / 2, Color.ofDefaults Defaults.Purple⟩).push
          (Polyline.ofPoints [⟨0, 0⟩, ⟨1, 2⟩] Fill.default Stroke.default)).polylines
        ++ [Polyline.ofPoints [⟨3, 4⟩] Fill.default Stroke.default] :=
  ⟨((lineChart_push_spec _ (Polyline.new Fill.default Stroke.default) _).1 rfl).2.2,
   ((lineChart_push_spec _ (Polyline.ofPoints [⟨3, 4⟩] Fill.default Stroke.default)
      ⟨⟨100, 100⟩, ⟨100, 100⟩, 1, Origin.BottomLeft, ⟨0, 0⟩⟩).2 (by simp [Polyline.ofPoints])).1⟩

/-! ## Lengths -/

/-- C14 (as stated, refuted), in binary64 arithmetic: at scale 10 the length
`0.1 + 0.2` is scaled to the `double` above 3 (written 3.0000000000000004 with
17 digits), while the scaled lengths `0.1 * 10` and `0.2 * 10` add up to 3. -/
theorem translateScale_sum_is_rounded :
    binary64.translateScale ((Double.ofRat (1 / 10)).add (Double.ofRat (2 / 10)))
        ⟨⟨Double.ofRat 100, Double.ofRat 100⟩, ⟨Double.ofRat 100, Double.ofRat 100⟩,
          Double.ofRat 10, Origin.TopLeft, ⟨Double.ofRat 0, Double.ofRat 0⟩⟩
      = Double.finite false (6755399441055745 / 2251799813685248) ∧
    (binary64.translateScale (Double.ofRat (1 / 10))
        ⟨⟨Double.ofRat 100, Double.ofRat 100⟩, ⟨Double.ofRat 100, Double.ofRat 100⟩,
          Double.ofRat 10, Origin.TopLeft, ⟨Double.ofRat 0, Double.ofRat 0⟩⟩).add
      (binary64.translateScale (Double.ofRat (2 / 10))
        ⟨⟨Double.ofRat 100, Double.ofRat 100⟩, ⟨Double.ofRat 100, Double.ofRat 100⟩,
          Double.ofRat 10, Origin.TopLeft, ⟨Double.ofRat 0, Double.ofRat 0⟩⟩)
      = Double.finite false 3 ∧
    binary64.translateScale ((Double.ofRat (1 / 10)).add (Double.ofRat (2 / 10)))
        ⟨⟨Double.ofRat 100, Double.ofRat 100⟩, ⟨Double.ofRat 100, Double.ofRat 100⟩,
          Double.ofRat 10, Origin.TopLeft, ⟨Double.ofRat 0, Double.ofRat 0⟩⟩
      ≠ (binary64.translateScale (Double.ofRat (1 / 10))
        ⟨⟨Double.ofRat 100, Double.ofRat 100⟩, ⟨Double.ofRat 100, Double.ofRat 100⟩,
          Double.ofRat 10, Origin.TopLeft, ⟨Double.ofRat 0, Double.ofRat 0⟩⟩).add
      (binary64.translateScale (Double.ofRat (2 / 10))
        ⟨⟨Double.ofRat 100, Double.ofRat 100⟩, ⟨Double.ofRat 100, Double.ofRat 100⟩,
          Double.ofRat 10, Origin.TopLeft, ⟨Double.ofRat 0, Double.ofRat 0⟩⟩) := by
  refine ⟨by decide!, by decide!, by decide!⟩

/-- C14 (amended): in binary64 arithmetic `translateScale(a, L)` is the one
rounded product `a * L.scale`, whatever the origin, the origin offset, the
dimensions and the window of the layout are: two layouts with the same scale
give the same value.  In exact arithmetic `translateScale` is also linear in
its length argument:
`translateScale(a + b, L) = translateScale(a, L) + translateScale(b, L)`. -/
theorem translateScale_linear_exact (L : Layout) (a b : ℚ) (D : binary64.Layout)
    (ad : Double) :
    translateScale (a + b) L = translateScale a L + translateScale b L ∧
    translateScale a L = a * L.scale ∧
    (∀ (dimensions window : Dimensions) (origin : Origin) (origin_offset : Point),
      translateScale a ⟨dimensions, window, L.scale, origin, origin_offset⟩
        = translateScale a L) ∧
    binary64.translateScale ad D = ad.mul D.scale ∧
    (∀ (dimensions window : binary64.Dimensions) (origin : Origin)
        (origin_offset : binary64.Point),
      binary64.translateScale ad ⟨dimensions, window, D.scale, origin, origin_offset⟩
        = binary64.translateScale ad D) := by
  refine ⟨?_, rfl, fun _ _ _ _ => rfl, rfl, fun _ _ _ _ => rfl⟩
  simp only [translateScale]
  ring

/-! ## Saving -/

/-- The serialization of a document is never the empty text. -/
theorem Document.toString_ne_empty (d : Document) : d.toString ≠ "" := by
  intro h
  have h1 := congrArg String.length h
  simp only [Document.toString, elemEnd, String.length_append] at h1
  have h2 : "</".length = 2 := by decide
  have h3 : "".length = 0 := by decide
  omega

/-- A loop that adds one text per element to a string is the start value
followed by the texts in order. -/
theorem foldl_append_eq_join {α : Type} (f : α → String) (xs : List α) :
    ∀ init : String,
      xs.foldl (fun acc x => acc ++ f x) init = init ++ String.join (xs.map f) := by
  induction xs with
  | nil => intro init; apply String.ext; simp
  | cons x xs ih =>
    intro init
    rw [List.foldl_cons, ih]
    apply String.ext
    simp

/-- The loop that writes a `points` attribute is the concatenation of one text
per point, in order. -/
theorem pointsToString_eq_join (points : List Point) (L : Layout) :
    pointsToString points L
      = String.join (points.map (fun p =>
          streamDouble (translateX L p.x 0) ++ "," ++ streamDouble (translateY L p.y 0) ++ " ")) := by
  have h := foldl_append_eq_join (fun p : Point =>
    streamDouble (translateX L p.x 0) ++ "," ++ streamDouble (translateY L p.y 0) ++ " ") points ""
  have hfun : (fun (ss : String) (p : Point) => ss ++ streamDouble (translateX L p.x 0) ++ ","
        ++ streamDouble (translateY L p.y 0) ++ " ")
      = (fun (acc : String) (p : Point) => acc ++ (streamDouble (translateX L p.x 0) ++ ","
        ++ streamDouble (translateY L p.y 0) ++ " ")) := by
    funext ss p
    simp only [String.append_assoc]
  unfold pointsToString
  rw [hfun, h]
  apply String.ext
  simp

/-- C16: for every polygon and every polyline with points `p1..pn` (`n ≥ 0`)
and every layout `L`, the rendering is the element start, then `points="`,
then for each point in insertion order `translateX(L, pi.x)`, a comma,
`translateY(L, pi.y)` and one blank, then the closing quote and a blank, then
fill, stroke and the element end.  The value so holds exactly `n` pairs in
insertion order, each followed by a blank: it is empty when `n = 0` and ends
with a blank when `n ≥ 1`. -/
theorem points_attribute_spec (L : Layout) :
    (∀ pg : Polygon,
      pg.toString L = elemStart "polygon" ++ "points=\""
        ++ String.join (pg.points.map (fun p =>
            streamDouble (translateX L p.x 0) ++ "," ++ streamDouble (translateY L p.y 0) ++ " "))
        ++ "\" " ++ pg.fill.toString L ++ pg.stroke.toString L ++ emptyElemEnd) ∧
    (∀ pl : Polyline,
      pl.toString L = elemStart "polyline" ++ "points=\""
        ++ String.join (pl.points.map (fun p =>
            streamDouble (translateX L p.x 0) ++ "," ++ streamDouble (translateY L p.y 0) ++ " "))
        ++ "\" " ++ pl.fill.toString L ++ pl.stroke.toString L ++ emptyElemEnd) ∧
    (∀ points : List Point,
      (points.map (fun p =>
        streamDouble (translateX L p.x 0) ++ "," ++ streamDouble (translateY L p.y 0) ++ " ")).length
        = points.length) ∧
    pointsToString [] L = "" ∧
    (∀ (points : List Point) (q : Point),
      pointsToString (points ++ [q]) L
        = pointsToString points L ++ streamDouble (translateX L q.x 0) ++ ","
            ++ streamDouble (translateY L q.y 0) ++ " ") := by
  refine ⟨fun pg => ?_, fun pl => ?_, fun points => by simp, rfl, fun points q => ?_⟩
  · simp only [Polygon.toString, pointsToString_eq_join]
  · simp only [Polyline.toString, pointsToString_eq_join]
  · simp only [pointsToString, List.foldl_append, List.foldl_cons, List.foldl_nil]

/-! ## The data bounding box -/

/-- The loop body of `getMinPoint` keeps the componentwise minimum. -/
theorem minStep_eq (m p : Point) : minStep m p = ⟨min m.x p.x, min m.y p.y⟩ := by
  have h1 : p.x < m.x → min m.x p.x = p.x := fun h => min_eq_right (le_of_lt h)
  have h2 : ¬ p.x < m.x → min m.x p.x = m.x := fun h => min_eq_left (not_lt.mp h)
  have h3 : p.y < m.y → min m.y p.y = p.y := fun h => min_eq_right (le_of_lt h)
  have h4 : ¬ p.y < m.y → min m.y p.y = m.y := fun h => min_eq_left (not_lt.mp h)
  simp only [minStep]
  by_cases hx : p.x < m.x <;> by_cases hy : p.y < m.y <;>
    simp [hx, hy, h1, h2, h3, h4]

/-- The loop body of `getMaxPoint` keeps the componentwise maximum. -/
theorem maxStep_eq (m p : Point) : maxStep m p = ⟨max m.x p.x, max m.y p.y⟩ := by
  have h1 : p.x > m.x → max m.x p.x = p.x := fun h => max_eq_right (le_of_lt h)
  have h2 : ¬ p.x > m.x → max m.x p.x = m.x := fun h => max_eq_left (not_lt.mp h)
  have h3 : p.y > m.y → max m.y p.y = p.y := fun h => max_eq_right (le_of_lt h)
  have h4 : ¬ p.y > m.y → max m.y p.y = m.y := fun h => max_eq_left (not_lt.mp h)
  simp only [maxStep]
  by_cases hx : p.x > m.x <;> by_cases hy : p.y > m.y <;>
    simp [hx, hy, h1, h2, h3, h4]

/-- A running minimum is below its start value and below every element, and
it is the start value or one of the elements. -/
theorem foldl_min_spec (l : List ℚ) :
    ∀ a, l.foldl min a ≤ a ∧ (∀ v ∈ l, l.foldl min a ≤ v) ∧
      (l.foldl min a = a ∨ l.foldl min a ∈ l) := by
  induction l with
  | nil => intro a; simp
  | cons v vs ih =>
    intro a
    obtain ⟨h1, h2, h3⟩ := ih (min a v)
    refine ⟨le_trans h1 (min_le_left _ _), ?_, ?_⟩
    · intro w hw
      rcases List.mem_cons.mp hw with rfl | hw
      · exact le_trans h1 (min_le_right _ _)
      · exact h2 w hw
    · rcases h3 with h3 | h3
      · rcases min_choice a v with hc | hc
        · left; rw [List.foldl_cons, h3]; exact hc
        · right; rw [List.foldl_cons, h3, hc]; exact List.mem_cons_self _ _
      · right; exact List.mem_cons_of_mem _ h3

/-- A running maximum is above its start value and above every element, and
it is the start value or one of the elements. -/
theorem foldl_max_spec (l : List ℚ) :
    ∀ a, a ≤ l.foldl max a ∧ (∀ v ∈ l, v ≤ l.foldl max a) ∧
      (l.foldl max a = a ∨ l.foldl max a ∈ l) := by
  induction l with
  | nil => intro a; simp
  | cons v vs ih =>
    intro a
    obtain ⟨h1, h2, h3⟩ := ih (max a v)
    refine ⟨le_trans (le_max_left _ _) h1, ?_, ?_⟩
    · intro w hw
      rcases List.mem_cons.mp hw with rfl | hw
      · exact le_trans (le_max_right _ _) h1
      · exact h2 w hw
    · rcases h3 with h3 | h3
      · rcases max_choice a v with hc | hc
        · left; rw [List.foldl_cons, h3]; exact hc
        · right; rw [List.foldl_cons, h3, hc]; exact List.mem_cons_self _ _
      · right; exact List.mem_cons_of_mem _ h3

theorem foldl_min_absorb (l : List ℚ) : ∀ a b, min a (l.foldl min b) = l.foldl min (min a b) := by
  induction l with
  | nil => intro a b; rfl
  | cons v vs ih => intro a b; simp only [List.foldl_cons]; rw [ih, min_assoc]

theorem foldl_max_absorb (l : List ℚ) : ∀ a b, max a (l.foldl max b) = l.foldl max (max a b) := by
  induction l with
  | nil => intro a b; rfl
  | cons v vs ih => intro a b; simp only [List.foldl_cons]; rw [ih, max_assoc]

theorem foldl_minStep_eq (pts : List Point) : ∀ m : Point,
    pts.foldl minStep m
      = ⟨(pts.map Point.x).foldl min m.x, (pts.map Point.y).foldl min m.y⟩ := by
  induction pts with
  | nil => intro m; rfl
  | cons p ps ih => intro m; simp only [List.foldl_cons, List.map_cons, ih, minStep_eq]

theorem foldl_maxStep_eq (pts : List Point) : ∀ m : Point,
    pts.foldl maxStep m
      = ⟨(pts.map Point.x).foldl max m.x, (pts.map Point.y).foldl max m.y⟩ := by
  induction pts with
  | nil => intro m; rfl
  | cons p ps ih => intro m; simp only [List.foldl_cons, List.map_cons, ih, maxStep_eq]


/-- One pass of the loop of `getDimensions` over a polyline that has points,
with both running values valid: no access throws, and the running values are
updated by the loop bodies of `getMinPoint` and `getMaxPoint`. -/
theorem getDimensionsStep_ok (mn mx a b : Point) (pl : Polyline)
    (ha : getMinPoint pl.points = some a) (hb : getMaxPoint pl.points = some b) :
    LineChart.getDimensionsStep (some mn, some mx) pl
      = Except.ok (some (minStep mn a), some (maxStep mx b)) := by
  simp only [LineChart.getDimensionsStep, ha, hb, optional.deref, minStep, maxStep]
  by_cases h1 : a.x < mn.x <;> by_cases h2 : a.y < mn.y <;>
    by_cases h3 : b.x > mx.x <;> by_cases h4 : b.y > mx.y <;>
    simp [h1, h2, h3, h4, bind, Except.bind, pure, Except.pure]


theorem getMinPoint_cons (p0 : Point) (ps : List Point) :
    getMinPoint (p0 :: ps)
      = some ⟨(ps.map Point.x).foldl min p0.x, (ps.map Point.y).foldl min p0.y⟩ := by
  simp [getMinPoint, foldl_minStep_eq, minStep_eq]

theorem getMaxPoint_cons (p0 : Point) (ps : List Point) :
    getMaxPoint (p0 :: ps)
      = some ⟨(ps.map Point.x).foldl max p0.x, (ps.map Point.y).foldl max p0.y⟩ := by
  simp [getMaxPoint, foldl_maxStep_eq, maxStep_eq]

/-- The loop of `getDimensions` over polylines that all have points: the
running minimum and maximum over all their points. -/
theorem getDimensions_foldlM (pls : List Polyline) (hwf : ∀ pl ∈ pls, pl.points ≠ []) :
    ∀ mn mx : Point,
      pls.foldlM LineChart.getDimensionsStep (some mn, some mx)
        = Except.ok
          (some ⟨(((pls.map Polyline.points).flatten).map Point.x).foldl min mn.x,
                 (((pls.map Polyline.points).flatten).map Point.y).foldl min mn.y⟩,
           some ⟨(((pls.map Polyline.points).flatten).map Point.x).foldl max mx.x,
                 (((pls.map Polyline.points).flatten).map Point.y).foldl max mx.y⟩) := by
  induction pls with
  | nil => intro mn mx; rfl
  | cons pl pls ih =>
    intro mn mx
    have hpl : pl.points ≠ [] := hwf pl (List.mem_cons_self _ _)
    obtain ⟨p0, ps, hps⟩ := List.exists_cons_of_ne_nil hpl
    have hstep := getDimensionsStep_ok mn mx _ _ pl
      (by rw [hps]; exact getMinPoint_cons p0 ps) (by rw [hps]; exact getMaxPoint_cons p0 ps)
    rw [List.foldlM_cons, hstep]
    show List.foldlM LineChart.getDimensionsStep _ pls = _
    rw [ih (fun q hq => hwf q (List.mem_cons_of_mem _ hq))]
    simp only [minStep_eq, maxStep_eq, List.map_cons, List.flatten_cons, hps, List.map_append,
      List.foldl_append, List.foldl_cons, foldl_min_absorb, foldl_max_absorb]


theorem foldl_min_points (f : Point → ℚ) (pts : List Point) (a : ℚ) :
    (pts.map f).foldl min a ≤ a ∧ (∀ p ∈ pts, (pts.map f).foldl min a ≤ f p) ∧
      ((pts.map f).foldl min a = a ∨ ∃ p ∈ pts, f p = (pts.map f).foldl min a) := by
  obtain ⟨h1, h2, h3⟩ := foldl_min_spec (pts.map f) a
  refine ⟨h1, fun p hp => h2 _ (List.mem_map_of_mem f hp), ?_⟩
  rcases h3 with h3 | h3
  · exact Or.inl h3
  · obtain ⟨p, hp, hpe⟩ := List.mem_map.mp h3
    exact Or.inr ⟨p, hp, hpe⟩

theorem foldl_max_points (f : Point → ℚ) (pts : List Point) (a : ℚ) :
    a ≤ (pts.map f).foldl max a ∧ (∀ p ∈ pts, f p ≤ (pts.map f).foldl max a) ∧
      ((pts.map f).foldl max a = a ∨ ∃ p ∈ pts, f p = (pts.map f).foldl max a) := by
  obtain ⟨h1, h2, h3⟩ := foldl_max_spec (pts.map f) a
  refine ⟨h1, fun p hp => h2 _ (List.mem_map_of_mem f hp), ?_⟩
  rcases h3 with h3 | h3
  · exact Or.inl h3
  · obtain ⟨p, hp, hpe⟩ := List.mem_map.mp h3
    exact Or.inr ⟨p, hp, hpe⟩

/-- Least value of `f` over the points `pts`, found by two nested loops. -/
theorem nested_min_least (f : Point → ℚ) (p0 : Point) (ps D : List Point)
    (hsub : ∀ p ∈ p0 :: ps, p ∈ D) :
    (∃ p ∈ D, f p = (D.map f).foldl min ((ps.map f).foldl min (f p0))) ∧
    ∀ p ∈ D, (D.map f).foldl min ((ps.map f).foldl min (f p0)) ≤ f p := by
  obtain ⟨_, h2, h3⟩ := foldl_min_points f D ((ps.map f).foldl min (f p0))
  obtain ⟨_, _, k3⟩ := foldl_min_points f ps (f p0)
  refine ⟨?_, h2⟩
  rcases h3 with h3 | h3
  · rcases k3 with k3 | ⟨p, hp, hpe⟩
    · exact ⟨p0, hsub p0 (List.mem_cons_self _ _), by rw [h3, k3]⟩
    · exact ⟨p, hsub p (List.mem_cons_of_mem _ hp), by rw [h3, hpe]⟩
  · exact h3

theorem nested_max_greatest (f : Point → ℚ) (p0 : Point) (ps D : List Point)
    (hsub : ∀ p ∈ p0 :: ps, p ∈ D) :
    (∃ p ∈ D, f p = (D.map f).foldl max ((ps.map f).foldl max (f p0))) ∧
    ∀ p ∈ D, f p ≤ (D.map f).foldl max ((ps.map f).foldl max (f p0)) := by
  obtain ⟨_, h2, h3⟩ := foldl_max_points f D ((ps.map f).foldl max (f p0))
  obtain ⟨_, _, k3⟩ := foldl_max_points f ps (f p0)
  refine ⟨?_, h2⟩
  rcases h3 with h3 | h3
  · rcases k3 with k3 | ⟨p, hp, hpe⟩
    · exact ⟨p0, hsub p0 (List.mem_cons_self _ _), by rw [h3, k3]⟩
    · exact ⟨p, hsub p (List.mem_cons_of_mem _ hp), by rw [h3, hpe]⟩
  · exact h3

/-- The value of `getDimensions` on a chart whose polylines all have points. -/
theorem getDimensions_closed (c : LineChart) (pl0 : Polyline) (rest : List Polyline)
    (p00 : Point) (ps0 : List Point) (hc : c.polylines = pl0 :: rest)
    (hp : pl0.points = p00 :: ps0) (hwf : ∀ pl ∈ c.polylines, pl.points ≠ []) :
    c.getDimensions = Except.ok (some
      ⟨((c.dataPoints.map Point.x).foldl max ((ps0.map Point.x).foldl max p00.x))
          - ((c.dataPoints.map Point.x).foldl min ((ps0.map Point.x).foldl min p00.x)),
       ((c.dataPoints.map Point.y).foldl max ((ps0.map Point.y).foldl max p00.y))
          - ((c.dataPoints.map Point.y).foldl min ((ps0.map Point.y).foldl min p00.y))⟩) := by
  have hfold := getDimensions_foldlM c.polylines hwf
    ⟨(ps0.map Point.x).foldl min p00.x, (ps0.map Point.y).foldl min p00.y⟩
    ⟨(ps0.map Point.x).foldl max p00.x, (ps0.map Point.y).foldl max p00.y⟩
  unfold LineChart.getDimensions
  split
  · rename_i h; rw [hc] at h; cases h
  · rename_i q0 qs h
    rw [hc] at h
    injection h with h1 h2
    subst h1
    rw [hp, getMinPoint_cons, getMaxPoint_cons, hfold]
    rfl

/-- The running minimum of `f` over a list that starts at its first point is
attained in the list and below every value. -/
theorem cons_min_least (f : Point → ℚ) (p0 : Point) (ps : List Point) :
    (∃ p ∈ p0 :: ps, f p = (ps.map f).foldl min (f p0)) ∧
    ∀ p ∈ p0 :: ps, (ps.map f).foldl min (f p0) ≤ f p := by
  obtain ⟨h1, h2, h3⟩ := foldl_min_points f ps (f p0)
  constructor
  · rcases h3 with h3 | ⟨p, hp, hpe⟩
    · exact ⟨p0, List.mem_cons_self _ _, h3.symm⟩
    · exact ⟨p, List.mem_cons_of_mem _ hp, hpe⟩
  · intro p hp
    rcases List.mem_cons.mp hp with rfl | hp
    · exact h1
    · exact h2 p hp

theorem cons_max_greatest (f : Point → ℚ) (p0 : Point) (ps : List Point) :
    (∃ p ∈ p0 :: ps, f p = (ps.map f).foldl max (f p0)) ∧
    ∀ p ∈ p0 :: ps, f p ≤ (ps.map f).foldl max (f p0) := by
  obtain ⟨h1, h2, h3⟩ := foldl_max_points f ps (f p0)
  constructor
  · rcases h3 with h3 | ⟨p, hp, hpe⟩
    · exact ⟨p0, List.mem_cons_self _ _, h3.symm⟩
    · exact ⟨p, List.mem_cons_of_mem _ hp, hpe⟩
  · intro p hp
    rcases List.mem_cons.mp hp with rfl | hp
    · exact h1
    · exact h2 p hp

/-- On a chart that holds at least one polyline, all stored polylines having
points, `getDimensions` returns the greatest minus the least `x` and the
greatest minus the least `y` over the union of the stored points. -/
theorem getDimensions_bounds (c : LineChart) (hne : c.polylines ≠ [])
    (hwf : ∀ pl ∈ c.polylines, pl.points ≠ []) :
    ∃ xmin xmax ymin ymax : ℚ,
      c.getDimensions = Except.ok (some ⟨xmax - xmin, ymax - ymin⟩) ∧
      ((∃ p ∈ c.dataPoints, p.x = xmin) ∧ ∀ p ∈ c.dataPoints, xmin ≤ p.x) ∧
      ((∃ p ∈ c.dataPoints, p.x = xmax) ∧ ∀ p ∈ c.dataPoints, p.x ≤ xmax) ∧
      ((∃ p ∈ c.dataPoints, p.y = ymin) ∧ ∀ p ∈ c.dataPoints, ymin ≤ p.y) ∧
      ((∃ p ∈ c.dataPoints, p.y = ymax) ∧ ∀ p ∈ c.dataPoints, p.y ≤ ymax) ∧
      0 ≤ xmax - xmin ∧ 0 ≤ ymax - ymin := by
  obtain ⟨pl0, rest, hc⟩ := List.exists_cons_of_ne_nil hne
  obtain ⟨p00, ps0, hp⟩ :=
    List.exists_cons_of_ne_nil (hwf pl0 (by rw [hc]; exact List.mem_cons_self _ _))
  have hsub : ∀ p ∈ p00 :: ps0, p ∈ c.dataPoints := by
    intro p hp0
    simp only [LineChart.dataPoints, hc, List.map_cons, List.flatten_cons, hp]
    exact List.mem_append_left _ hp0
  have hxmin := nested_min_least Point.x p00 ps0 c.dataPoints hsub
  have hxmax := nested_max_greatest Point.x p00 ps0 c.dataPoints hsub
  have hymin := nested_min_least Point.y p00 ps0 c.dataPoints hsub
  have hymax := nested_max_greatest Point.y p00 ps0 c.dataPoints hsub
  refine ⟨_, _, _, _, getDimensions_closed c pl0 rest p00 ps0 hc hp hwf,
    hxmin, hxmax, hymin, hymax, ?_, ?_⟩
  · obtain ⟨p, hpD, hpe⟩ := hxmin.1
    have := hxmax.2 p hpD
    rw [← hpe]
    linarith
  · obtain ⟨p, hpD, hpe⟩ := hymin.1
    have := hymax.2 p hpD
    rw [← hpe]
    linarith

/-- C17: for every line chart that holds at least one polyline, all stored
polylines having points, `getDimensions` returns a value whose width is the
greatest `x` minus the least `x` and whose height is the greatest `y` minus the
least `y`, each taken over the union of the points of all stored polylines
(attained by a point of the union and bounding all of them); so width and
height are not negative.  `getMinPoint` and `getMaxPoint` return no value for
an empty list and the componentwise minimum and maximum of a list with
points. -/
theorem getDimensions_spec (c : LineChart) (hne : c.polylines ≠ [])
    (hwf : ∀ pl ∈ c.polylines, pl.points ≠ []) :
    (∃ xmin xmax ymin ymax : ℚ,
      c.getDimensions = Except.ok (some ⟨xmax - xmin, ymax - ymin⟩) ∧
      ((∃ p ∈ c.dataPoints, p.x = xmin) ∧ ∀ p ∈ c.dataPoints, xmin ≤ p.x) ∧
      ((∃ p ∈ c.dataPoints, p.x = xmax) ∧ ∀ p ∈ c.dataPoints, p.x ≤ xmax) ∧
      ((∃ p ∈ c.dataPoints, p.y = ymin) ∧ ∀ p ∈ c.dataPoints, ymin ≤ p.y) ∧
      ((∃ p ∈ c.dataPoints, p.y = ymax) ∧ ∀ p ∈ c.dataPoints, p.y ≤ ymax) ∧
      0 ≤ xmax - xmin ∧ 0 ≤ ymax - ymin) ∧
    (getMinPoint [] = none ∧ getMaxPoint [] = none) ∧
    (∀ pts : List Point, pts ≠ [] →
      ∃ mn mx : Point, getMinPoint pts = some mn ∧ getMaxPoint pts = some mx ∧
        ((∃ p ∈ pts, p.x = mn.x) ∧ ∀ p ∈ pts, mn.x ≤ p.x) ∧
        ((∃ p ∈ pts, p.y = mn.y) ∧ ∀ p ∈ pts, mn.y ≤ p.y) ∧
        ((∃ p ∈ pts, p.x = mx.x) ∧ ∀ p ∈ pts, p.x ≤ mx.x) ∧
        ((∃ p ∈ pts, p.y = mx.y) ∧ ∀ p ∈ pts, p.y ≤ mx.y)) := by
  refine ⟨getDimensions_bounds c hne hwf, ⟨rfl, rfl⟩, ?_⟩
  · intro pts hpts
    obtain ⟨p0, ps, rfl⟩ := List.exists_cons_of_ne_nil hpts
    exact ⟨_, _, getMinPoint_cons p0 ps, getMaxPoint_cons p0 ps,
      cons_min_least Point.x p0 ps, cons_min_least Point.y p0 ps,
      cons_max_greatest Point.x p0 ps, cons_max_greatest Point.y p0 ps⟩

/-- C17 at a concrete chart: two polylines, `(0,0) (10,2)` and `(3,5)`; the
dimensions are 10 by 5. -/
theorem getDimensions_spec_witness :
    ∃ w h : ℚ,
      (((LineChart.new ⟨5, 5⟩ 1 ⟨1 / 2, Color.ofDefaults Defaults.Purple⟩).push
          (Polyline.ofPoints [⟨0, 0⟩, ⟨10, 2⟩] Fill.default Stroke.default)).push
          (Polyline.ofPoints [⟨3, 5⟩] Fill.default Stroke.default)).getDimensions
        = Except.ok (some ⟨w, h⟩) ∧ 0 ≤ w ∧ 0 ≤ h := by
  obtain ⟨⟨xmin, xmax, ymin, ymax, h, _, _, _, _, hw, hh⟩, _⟩ :=
    getDimensions_spec
      (((LineChart.new ⟨5, 5⟩ 1 ⟨1 / 2, Color.ofDefaults Defaults.Purple⟩).push
          (Polyline.ofPoints [⟨0, 0⟩, ⟨10, 2⟩] Fill.default Stroke.default)).push
          (Polyline.ofPoints [⟨3, 5⟩] Fill.default Stroke.default))
      (by decide) (by decide)
  exact ⟨_, _, h, hw, hh⟩

/-! ## The axis -/

/-- When `getDimensions` returns `dim`, `axisString` renders the polyline
`axis` built from `dim`. -/
theorem axisString_eq (c : LineChart) (L : Layout) (dim : Dimensions)
    (hdim : c.getDimensions = Except.ok (some dim)) :
    c.axisString L = Except.ok ((c.axisPolyline dim).toString L) := by
  simp only [LineChart.axisString, hdim, LineChart.axisPolyline]
  rfl

/-- The three vertices of the axis. -/
theorem axisPolyline_points (c : LineChart) (dim : Dimensions) :
    (c.axisPolyline dim).points
      = [⟨c.margin.width, c.margin.height + dim.height * (11 / 10)⟩,
         ⟨c.margin.width, c.margin.height⟩,
         ⟨c.margin.width + dim.width * (11 / 10), c.margin.height⟩] := by
  simp [LineChart.axisPolyline, Polyline.push, Polyline.new]

/-- C11: for every line chart that holds at least one polyline (all stored
polylines having points) there are the least and greatest `x` and `y` of the
data, giving a bounding box of width `W = xmax - xmin` and height
`H = ymax - ymin`, such that `axisString` renders a polyline in the axis stroke
with exactly three vertices which, before layout translation and with the
margin taken off, are `(0, 1.1 * H)`, `(0, 0)` and `(1.1 * W, 0)`: the
horizontal arm has length `1.1 * W` and the vertical arm `1.1 * H`.  In
particular with `W = 10` and `H = 5` the vertices are `(0, 5.5)`, `(0, 0)` and
`(11, 0)`. -/
theorem axis_arms_spec (c : LineChart) (L : Layout) (hne : c.polylines ≠ [])
    (hwf : ∀ pl ∈ c.polylines, pl.points ≠ []) :
    ∃ xmin xmax ymin ymax : ℚ,
      ((∃ p ∈ c.dataPoints, p.x = xmin) ∧ ∀ p ∈ c.dataPoints, xmin ≤ p.x) ∧
      ((∃ p ∈ c.dataPoints, p.x = xmax) ∧ ∀ p ∈ c.dataPoints, p.x ≤ xmax) ∧
      ((∃ p ∈ c.dataPoints, p.y = ymin) ∧ ∀ p ∈ c.dataPoints, ymin ≤ p.y) ∧
      ((∃ p ∈ c.dataPoints, p.y = ymax) ∧ ∀ p ∈ c.dataPoints, p.y ≤ ymax) ∧
      c.axisString L
        = Except.ok ((c.axisPolyline ⟨xmax - xmin, ymax - ymin⟩).toString L) ∧
      (c.axisPolyline ⟨xmax - xmin, ymax - ymin⟩).stroke = c.axis_stroke ∧
      (c.axisPolyline ⟨xmax - xmin, ymax - ymin⟩).points.length = 3 ∧
      (c.axisPolyline ⟨xmax - xmin, ymax - ymin⟩).points.map
          (fun p => (⟨p.x - c.margin.width, p.y - c.margin.height⟩ : Point))
        = [⟨0, 11 / 10 * (ymax - ymin)⟩, ⟨0, 0⟩, ⟨11 / 10 * (xmax - xmin), 0⟩] ∧
      (xmax - xmin = 10 → ymax - ymin = 5 →
        (c.axisPolyline ⟨xmax - xmin, ymax - ymin⟩).points.map
            (fun p => (⟨p.x - c.margin.width, p.y - c.margin.height⟩ : Point))
          = [⟨0, 11 / 2⟩, ⟨0, 0⟩, ⟨11, 0⟩]) := by
  obtain ⟨xmin, xmax, ymin, ymax, hdim, hx1, hx2, hy1, hy2, _, _⟩ :=
    getDimensions_bounds c hne hwf
  have hpts : (c.axisPolyline ⟨xmax - xmin, ymax - ymin⟩).points.map
      (fun p => (⟨p.x - c.margin.width, p.y - c.margin.height⟩ : Point))
      = [⟨0, 11 / 10 * (ymax - ymin)⟩, ⟨0, 0⟩, ⟨11 / 10 * (xmax - xmin), 0⟩] := by
    rw [axisPolyline_points]
    simp only [List.map_cons, List.map_nil, sub_self, add_sub_cancel_left]
    rw [mul_comm (ymax - ymin), mul_comm (xmax - xmin)]
  refine ⟨xmin, xmax, ymin, ymax, hx1, hx2, hy1, hy2, axisString_eq c L _ hdim, rfl, ?_, hpts, ?_⟩
  · rw [axisPolyline_points]; rfl
  · intro hW hH
    rw [hpts, hW, hH]
    norm_num

/-- C11 at a concrete chart: margin 5, two polylines `(0,0) (10,2)` and `(3,5)`
whose combined bounding box is 10 by 5; the axis has the vertices `(5, 10.5)`,
`(5, 5)` and `(16, 5)`, that is arms of length 11 and 5.5. -/
theorem axis_arms_spec_witness :
    ∃ dim : Dimensions,
      (((LineChart.new ⟨5, 5⟩ 1 ⟨1 / 2, Color.ofDefaults Defaults.Purple⟩).push
          (Polyline.ofPoints [⟨0, 0⟩, ⟨10, 2⟩] Fill.default Stroke.default)).push
          (Polyline.ofPoints [⟨3, 5⟩] Fill.default Stroke.default)).axisString
          ⟨⟨100, 100⟩, ⟨100, 100⟩, 1, Origin.BottomLeft, ⟨0, 0⟩⟩
        = Except.ok
          (((((LineChart.new ⟨5, 5⟩ 1 ⟨1 / 2, Color.ofDefaults Defaults.Purple⟩).push
            (Polyline.ofPoints [⟨0, 0⟩, ⟨10, 2⟩] Fill.default Stroke.default)).push
            (Polyline.ofPoints [⟨3, 5⟩] Fill.default Stroke.default)).axisPolyline dim).toString
              ⟨⟨100, 100⟩, ⟨100, 100⟩, 1, Origin.BottomLeft, ⟨0, 0⟩⟩) := by
  obtain ⟨xmin, xmax, ymin, ymax, _, _, _, _, h, _⟩ :=
    axis_arms_spec
      (((LineChart.new ⟨5, 5⟩ 1 ⟨1 / 2, Color.ofDefaults Defaults.Purple⟩).push
          (Polyline.ofPoints [⟨0, 0⟩, ⟨10, 2⟩] Fill.default Stroke.default)).push
          (Polyline.ofPoints [⟨3, 5⟩] Fill.default Stroke.default))
      ⟨⟨100, 100⟩, ⟨100, 100⟩, 1, Origin.BottomLeft, ⟨0, 0⟩⟩ (by decide) (by decide)
  exact ⟨_, h⟩

/-- The chart of the example above at work: dimensions 10 by 5 and the text of
the axis, with the arms of length 11 and 5.5 starting at the margin corner. -/
theorem axis_example_evaluated :
    (((LineChart.new ⟨5, 5⟩ 1 ⟨1 / 2, Color.ofDefaults Defaults.Purple⟩).push
        (Polyline.ofPoints [⟨0, 0⟩, ⟨10, 2⟩] Fill.default Stroke.default)).push
        (Polyline.ofPoints [⟨3, 5⟩] Fill.default Stroke.default)).getDimensions
      = Except.ok (some ⟨10, 5⟩) ∧
    (((LineChart.new ⟨5, 5⟩ 1 ⟨1 / 2, Color.ofDefaults Defaults.Purple⟩).push
        (Polyline.ofPoints [⟨0, 0⟩, ⟨10, 2⟩] Fill.default Stroke.default)).push
        (Polyline.ofPoints [⟨3, 5⟩] Fill.default Stroke.default)).axisString
        ⟨⟨100, 100⟩, ⟨100, 100⟩, 1, Origin.TopLeft, ⟨0, 0⟩⟩
      = Except.ok ("\t<polyline points=\"5,10.5 5,5 16,5 \" fill=\"transparent\" "
          ++ "stroke-width=\"0.5\" stroke=\"rgb(128,0,128)\" />\n") := by
  constructor <;> decide!

/-- With data dimensions that are not negative, a stored point shifted by the
margin lies in the box spanned by the axis vertices exactly when its own
coordinates lie between 0 and 1.1 times the data width, respectively height. -/
theorem insideSpan_axis_iff (c : LineChart) (W H : ℚ) (hW : 0 ≤ W) (hH : 0 ≤ H) (p : Point) :
    insideSpan (c.axisPolyline ⟨W, H⟩).points ⟨p.x + c.margin.width, p.y + c.margin.height⟩
      ↔ (0 ≤ p.x ∧ p.x ≤ 11 / 10 * W ∧ 0 ≤ p.y ∧ p.y ≤ 11 / 10 * H) := by
  rw [axisPolyline_points]
  simp only [insideSpan, List.mem_cons, List.mem_singleton, exists_eq_or_imp, exists_eq_left,
    List.not_mem_nil, false_and, exists_false, or_false]
  constructor
  · rintro ⟨h1, h2, h3, h4⟩
    refine ⟨?_, ?_, ?_, ?_⟩
    · rcases h1 with h | h | h <;> linarith
    · rcases h2 with h | h | h <;> linarith
    · rcases h3 with h | h | h <;> linarith
    · rcases h4 with h | h | h <;> linarith
  · rintro ⟨h1, h2, h3, h4⟩
    refine ⟨Or.inl (by linarith), Or.inr (Or.inr (by linarith)), Or.inr (Or.inl (by linarith)),
      Or.inl (by linarith)⟩

/-- C12 (as stated, refuted): the chart with margin `(5, 5)` that holds the one
polyline `(100,100) (110,105)` has data dimensions 10 by 5 and the axis
vertices `(5, 10.5)`, `(5, 5)`, `(16, 5)`; its data point `(100, 100)`, shifted
by the margin to `(105, 105)`, does not lie in the box spanned by them. -/
theorem axis_box_misses_data :
    ((LineChart.new ⟨5, 5⟩ 1 ⟨1 / 2, Color.ofDefaults Defaults.Purple⟩).push
        (Polyline.ofPoints [⟨100, 100⟩, ⟨110, 105⟩] Fill.default Stroke.default)).getDimensions
      = Except.ok (some ⟨10, 5⟩) ∧
    ((LineChart.new ⟨5, 5⟩ 1 ⟨1 / 2, Color.ofDefaults Defaults.Purple⟩).push
        (Polyline.ofPoints [⟨100, 100⟩, ⟨110, 105⟩] Fill.default Stroke.default)).axisString
        ⟨⟨400, 300⟩, ⟨900, 900⟩, 1, Origin.TopLeft, ⟨0, 0⟩⟩
      = Except.ok ("\t<polyline points=\"5,10.5 5,5 16,5 \" fill=\"transparent\" "
          ++ "stroke-width=\"0.5\" stroke=\"rgb(128,0,128)\" />\n") ∧
    (((LineChart.new ⟨5, 5⟩ 1 ⟨1 / 2, Color.ofDefaults Defaults.Purple⟩).push
        (Polyline.ofPoints [⟨100, 100⟩, ⟨110, 105⟩] Fill.default Stroke.default)).axisPolyline
          ⟨10, 5⟩).points = [⟨5, 21 / 2⟩, ⟨5, 5⟩, ⟨16, 5⟩] ∧
    (⟨100, 100⟩ : Point) ∈
      ((LineChart.new ⟨5, 5⟩ 1 ⟨1 / 2, Color.ofDefaults Defaults.Purple⟩).push
        (Polyline.ofPoints [⟨100, 100⟩, ⟨110, 105⟩] Fill.default Stroke.default)).dataPoints ∧
    ¬ insideSpan
      (((LineChart.new ⟨5, 5⟩ 1 ⟨1 / 2, Color.ofDefaults Defaults.Purple⟩).push
        (Polyline.ofPoints [⟨100, 100⟩, ⟨110, 105⟩] Fill.default Stroke.default)).axisPolyline
          ⟨10, 5⟩).points ⟨100 + 5, 100 + 5⟩ := by
  refine ⟨by decide!, by decide!, by decide!, by decide!, by decide!⟩

/-- C12 (amended): the axis box is anchored at the margin corner, not at the
least data point.  For every line chart that holds at least one polyline (all
stored polylines having points) and every margin, with `W` and `H` the width
and height of the data bounding box, the axis rendered is the polyline with
the vertices `(m.width, m.height + 1.1 * H)`, `(m.width, m.height)`,
`(m.width + 1.1 * W, m.height)`, and a point shifted by the margin lies in the
box spanned by these vertices exactly when its stored coordinates satisfy
`0 ≤ x ≤ 1.1 * W` and `0 ≤ y ≤ 1.1 * H`.  So every shifted data point lies in
the box when the least data `x` and the least data `y` are 0. -/
theorem axis_box_encloses_iff (c : LineChart) (hne : c.polylines ≠ [])
    (hwf : ∀ pl ∈ c.polylines, pl.points ≠ []) :
    ∃ xmin xmax ymin ymax : ℚ,
      ((∃ p ∈ c.dataPoints, p.x = xmin) ∧ ∀ p ∈ c.dataPoints, xmin ≤ p.x) ∧
      ((∃ p ∈ c.dataPoints, p.x = xmax) ∧ ∀ p ∈ c.dataPoints, p.x ≤ xmax) ∧
      ((∃ p ∈ c.dataPoints, p.y = ymin) ∧ ∀ p ∈ c.dataPoints, ymin ≤ p.y) ∧
      ((∃ p ∈ c.dataPoints, p.y = ymax) ∧ ∀ p ∈ c.dataPoints, p.y ≤ ymax) ∧
      (∀ L : Layout, c.axisString L
        = Except.ok ((c.axisPolyline ⟨xmax - xmin, ymax - ymin⟩).toString L)) ∧
      (c.axisPolyline ⟨xmax - xmin, ymax - ymin⟩).points
        = [⟨c.margin.width, c.margin.height + (ymax - ymin) * (11 / 10)⟩,
           ⟨c.margin.width, c.margin.height⟩,
           ⟨c.margin.width + (xmax - xmin) * (11 / 10), c.margin.height⟩] ∧
      (∀ p : Point,
        insideSpan (c.axisPolyline ⟨xmax - xmin, ymax - ymin⟩).points
            ⟨p.x + c.margin.width, p.y + c.margin.height⟩
          ↔ (0 ≤ p.x ∧ p.x ≤ 11 / 10 * (xmax - xmin) ∧
              0 ≤ p.y ∧ p.y ≤ 11 / 10 * (ymax - ymin))) ∧
      (xmin = 0 → ymin = 0 →
        ∀ p ∈ c.dataPoints,
          insideSpan (c.axisPolyline ⟨xmax - xmin, ymax - ymin⟩).points
            ⟨p.x + c.margin.width, p.y + c.margin.height⟩) := by
  obtain ⟨xmin, xmax, ymin, ymax, hdim, hx1, hx2, hy1, hy2, hW, hH⟩ :=
    getDimensions_bounds c hne hwf
  refine ⟨xmin, xmax, ymin, ymax, hx1, hx2, hy1, hy2, fun L => axisString_eq c L _ hdim,
    axisPolyline_points c _, fun p => insideSpan_axis_iff c _ _ hW hH p, ?_⟩
  intro h0x h0y p hp
  rw [insideSpan_axis_iff c _ _ hW hH p]
  have a1 := hx1.2 p hp
  have a2 := hx2.2 p hp
  have a3 := hy1.2 p hp
  have a4 := hy2.2 p hp
  rw [h0x] at a1 hW ⊢
  rw [h0y] at a3 hH ⊢
  refine ⟨a1, ?_, a3, ?_⟩ <;> linarith

/-- C12 (amended) at a concrete chart: two polylines `(0,0) (10,2)` and `(3,5)`
with margin `(5, 5)`; the least data coordinates are 0. -/
theorem axis_box_encloses_iff_witness :
    ∃ xmin xmax ymin ymax : ℚ,
      ∀ L : Layout,
        (((LineChart.new ⟨5, 5⟩ 1 ⟨1 / 2, Color.ofDefaults Defaults.Purple⟩).push
            (Polyline.ofPoints [⟨0, 0⟩, ⟨10, 2⟩] Fill.default Stroke.default)).push
            (Polyline.ofPoints [⟨3, 5⟩] Fill.default Stroke.default)).axisString L
          = Except.ok
            (((((LineChart.new ⟨5, 5⟩ 1 ⟨1 / 2, Color.ofDefaults Defaults.Purple⟩).push
              (Polyline.ofPoints [⟨0, 0⟩, ⟨10, 2⟩] Fill.default Stroke.default)).push
              (Polyline.ofPoints [⟨3, 5⟩] Fill.default Stroke.default)).axisPolyline
                ⟨xmax - xmin, ymax - ymin⟩).toString L) := by
  obtain ⟨xmin, xmax, ymin, ymax, _, _, _, _, h, _⟩ :=
    axis_box_encloses_iff
      (((LineChart.new ⟨5, 5⟩ 1 ⟨1 / 2, Color.ofDefaults Defaults.Purple⟩).push
          (Polyline.ofPoints [⟨0, 0⟩, ⟨10, 2⟩] Fill.default Stroke.default)).push
          (Polyline.ofPoints [⟨3, 5⟩] Fill.default Stroke.default))
      (by decide) (by decide)
  exact ⟨xmin, xmax, ymin, ymax, h⟩

/-! ## Rendering a chart -/

/-- The loop of `polylineToString` that builds one circle per vertex, when
`getDimensions` returns `dim`. -/
theorem vertices_mapM_eq (c : LineChart) (dim : Dimensions)
    (hdim : c.getDimensions = Except.ok (some dim)) (pts : List Point) :
    pts.mapM (fun p => do
        let dimensions ← c.getDimensions
        let d ← optional.deref dimensions
        pure (Circle.new p (d.height / 30) (Fill.ofDefaults Defaults.Black) Stroke.default))
      = Except.ok (pts.map (fun p => LineChart.vertexCircle p dim.height)) := by
  induction pts with
  | nil => rfl
  | cons p ps ih =>
    rw [List.mapM_cons, ih, hdim]
    rfl

/-- The text of one stored polyline when `getDimensions` returns `dim`: the
polyline shifted by the margin, then one circle per shifted point. -/
theorem polylineToString_eq (c : LineChart) (L : Layout) (dim : Dimensions)
    (hdim : c.getDimensions = Except.ok (some dim)) (q : Polyline) :
    c.polylineToString q L
      = Except.ok ((q.offset ⟨c.margin.width, c.margin.height⟩).toString L
          ++ String.join ((q.offset ⟨c.margin.width, c.margin.height⟩).points.map
              (fun p => (LineChart.vertexCircle p dim.height).toString L))) := by
  unfold LineChart.polylineToString
  dsimp only
  rw [vertices_mapM_eq c dim hdim]
  have hv := foldl_append_eq_join (fun v : Circle => v.toString L)
    ((q.offset ⟨c.margin.width, c.margin.height⟩).points.map
      (fun p => LineChart.vertexCircle p dim.height)) ""
  simp only [vectorToString]
  show Except.ok _ = Except.ok _
  rw [hv]
  congr 1
  apply String.ext
  simp [Function.comp_def]

/-- The loop of `LineChart::toString` over polylines whose texts are known. -/
theorem chart_foldlM_eq (c : LineChart) (L : Layout) (frag : Polyline → String)
    (hfrag : ∀ q, c.polylineToString q L = Except.ok (frag q)) (pls : List Polyline) :
    ∀ init : String,
      pls.foldlM (fun ret pl => do
          let s ← c.polylineToString pl L
          pure (ret ++ s)) init
        = Except.ok (init ++ String.join (pls.map frag)) := by
  induction pls with
  | nil => intro init; show Except.ok _ = Except.ok _; congr 1; apply String.ext; simp
  | cons q qs ih =>
    intro init
    rw [List.foldlM_cons, hfrag q]
    show List.foldlM _ (init ++ frag q) qs = _
    rw [ih]
    congr 1
    apply String.ext
    simp

/-- The rendering of a chart on which `getDimensions` returns `dim` and that
holds at least one polyline. -/
theorem lineChart_toString_eq (c : LineChart) (L : Layout) (dim : Dimensions)
    (hdim : c.getDimensions = Except.ok (some dim)) (hne : c.polylines ≠ []) :
    c.toString L
      = Except.ok (String.join (c.polylines.map (fun q =>
            (q.offset ⟨c.margin.width, c.margin.height⟩).toString L
              ++ String.join ((q.offset ⟨c.margin.width, c.margin.height⟩).points.map
                  (fun p => (LineChart.vertexCircle p dim.height).toString L))))
          ++ (c.axisPolyline dim).toString L) := by
  have hemp : c.polylines.isEmpty = false := by
    cases h : c.polylines with
    | nil => exact absurd h hne
    | cons _ _ => rfl
  unfold LineChart.toString
  rw [hemp]
  simp only [Bool.false_eq_true, if_false]
  rw [chart_foldlM_eq c L _ (polylineToString_eq c L dim hdim), axisString_eq c L dim hdim]
  rfl

/-- C18: for every layout `L` and every line chart with stored polylines
`q1..qn` (`n ≥ 1`, all having points), margin `m` and data bounding-box height
`H = ymax - ymin`, `LineChart::toString(L)` is, for `i = 1..n` in insertion
order, the rendering of `qi` with every point shifted by `(m.width, m.height)`
followed by one circle rendering per point of `qi`, in point order, centred at
the shifted point, with diameter `H / 30` (radius `H / 60`), black fill and no
stroke, all followed by the rendering of the axis polyline.  Rendering is a
function of the chart that returns only the text: the stored polylines are the
same before and after. -/
theorem lineChart_toString_spec (c : LineChart) (L : Layout) (hne : c.polylines ≠ [])
    (hwf : ∀ pl ∈ c.polylines, pl.points ≠ []) :
    ∃ xmin xmax ymin ymax : ℚ,
      ((∃ p ∈ c.dataPoints, p.x = xmin) ∧ ∀ p ∈ c.dataPoints, xmin ≤ p.x) ∧
      ((∃ p ∈ c.dataPoints, p.x = xmax) ∧ ∀ p ∈ c.dataPoints, p.x ≤ xmax) ∧
      ((∃ p ∈ c.dataPoints, p.y = ymin) ∧ ∀ p ∈ c.dataPoints, ymin ≤ p.y) ∧
      ((∃ p ∈ c.dataPoints, p.y = ymax) ∧ ∀ p ∈ c.dataPoints, p.y ≤ ymax) ∧
      c.toString L
        = Except.ok (String.join (c.polylines.map (fun q =>
              (q.offset ⟨c.margin.width, c.margin.height⟩).toString L
                ++ String.join ((q.offset ⟨c.margin.width, c.margin.height⟩).points.map
                    (fun p => (Circle.new p ((ymax - ymin) / 30)
                      (Fill.ofDefaults Defaults.Black) Stroke.default).toString L))))
            ++ (c.axisPolyline ⟨xmax - xmin, ymax - ymin⟩).toString L) ∧
      c.axisString L
        = Except.ok ((c.axisPolyline ⟨xmax - xmin, ymax - ymin⟩).toString L) ∧
      (∀ q : Polyline,
        (q.offset ⟨c.margin.width, c.margin.height⟩).points
          = q.points.map (fun p => (⟨p.x + c.margin.width, p.y + c.margin.height⟩ : Point)) ∧
        (q.offset ⟨c.margin.width, c.margin.height⟩).fill = q.fill ∧
        (q.offset ⟨c.margin.width, c.margin.height⟩).stroke = q.stroke) ∧
      (∀ p : Point,
        (Circle.new p ((ymax - ymin) / 30) (Fill.ofDefaults Defaults.Black) Stroke.default).center
          = p ∧
        (Circle.new p ((ymax - ymin) / 30) (Fill.ofDefaults Defaults.Black) Stroke.default).radius
          = (ymax - ymin) / 60) := by
  obtain ⟨xmin, xmax, ymin, ymax, hdim, hx1, hx2, hy1, hy2, _, _⟩ :=
    getDimensions_bounds c hne hwf
  have htext := lineChart_toString_eq c L _ hdim hne
  simp only [LineChart.vertexCircle] at htext
  have hoff : ∀ q : Polyline,
      (q.offset ⟨c.margin.width, c.margin.height⟩).points
        = q.points.map (fun p => (⟨p.x + c.margin.width, p.y + c.margin.height⟩ : Point)) ∧
      (q.offset ⟨c.margin.width, c.margin.height⟩).fill = q.fill ∧
      (q.offset ⟨c.margin.width, c.margin.height⟩).stroke = q.stroke :=
    fun q => ⟨rfl, rfl, rfl⟩
  have hcircle : ∀ p : Point,
      (Circle.new p ((ymax - ymin) / 30) (Fill.ofDefaults Defaults.Black) Stroke.default).center
        = p ∧
      (Circle.new p ((ymax - ymin) / 30) (Fill.ofDefaults Defaults.Black) Stroke.default).radius
        = (ymax - ymin) / 60 := by
    intro p
    refine ⟨rfl, ?_⟩
    simp only [Circle.new]
    ring
  exact ⟨xmin, xmax, ymin, ymax, hx1, hx2, hy1, hy2, htext, axisString_eq c L _ hdim,
    hoff, hcircle⟩

/-- C18 at a concrete chart and layout: margin 5, two polylines, origin
`BottomLeft`; the whole text, with the circle radius `5 / 60`. -/
theorem lineChart_toString_spec_witness :
    ∃ text : String,
      (((LineChart.new ⟨5, 5⟩ 1 ⟨1 / 2, Color.ofDefaults Defaults.Purple⟩).push
          (Polyline.ofPoints [⟨0, 0⟩, ⟨10, 2⟩] Fill.default
            ⟨1, Color.ofDefaults Defaults.Blue⟩)).push
          (Polyline.ofPoints [⟨3, 5⟩] Fill.default Stroke.default)).toString
          ⟨⟨100, 100⟩, ⟨100, 100⟩, 1, Origin.BottomLeft, ⟨0, 0⟩⟩ = Except.ok text := by
  obtain ⟨xmin, xmax, ymin, ymax, _, _, _, _, h, _⟩ :=
    lineChart_toString_spec
      (((LineChart.new ⟨5, 5⟩ 1 ⟨1 / 2, Color.ofDefaults Defaults.Purple⟩).push
          (Polyline.ofPoints [⟨0, 0⟩, ⟨10, 2⟩] Fill.default
            ⟨1, Color.ofDefaults Defaults.Blue⟩)).push
          (Polyline.ofPoints [⟨3, 5⟩] Fill.default Stroke.default))
      ⟨⟨100, 100⟩, ⟨100, 100⟩, 1, Origin.BottomLeft, ⟨0, 0⟩⟩ (by decide) (by decide)
  exact ⟨_, h⟩

/-- The chart of the example above, rendered: two polylines with their circles
and the axis. -/
theorem lineChart_example_evaluated :
    (((LineChart.new ⟨5, 5⟩ 1 ⟨1 / 2, Color.ofDefaults Defaults.Purple⟩).push
        (Polyline.ofPoints [⟨0, 0⟩, ⟨10, 2⟩] Fill.default
          ⟨1, Color.ofDefaults Defaults.Blue⟩)).push
        (Polyline.ofPoints [⟨3, 5⟩] Fill.default Stroke.default)).toString
        ⟨⟨100, 100⟩, ⟨100, 100⟩, 1, Origin.BottomLeft, ⟨0, 0⟩⟩
      = Except.ok
        ("\t<polyline points=\"5,95 15,93 \" fill=\"transparent\" stroke-width=\"1\" "
          ++ "stroke=\"rgb(0,0,255)\" />\n"
          ++ "\t<circle cx=\"5\" cy=\"95\" r=\"0.0833333\" fill=\"rgb(0,0,0)\" />\n"
          ++ "\t<circle cx=\"15\" cy=\"93\" r=\"0.0833333\" fill=\"rgb(0,0,0)\" />\n"
          ++ "\t<polyline points=\"8,90 \" fill=\"transparent\" />\n"
          ++ "\t<circle cx=\"8\" cy=\"90\" r=\"0.0833333\" fill=\"rgb(0,0,0)\" />\n"
          ++ "\t<polyline points=\"5,89.5 5,95 16,95 \" fill=\"transparent\" "
          ++ "stroke-width=\"0.5\" stroke=\"rgb(128,0,128)\" />\n") := by
  decide!

/-! ## Charts reachable through the public members -/

/-- A chart without stored polylines renders to the empty text. -/
theorem toString_of_no_polylines (c : LineChart) (L : Layout) (h : c.polylines = []) :
    c.toString L = Except.ok "" := by
  simp [LineChart.toString, h]
  rfl

/-- Appends of polylines without points and offsets keep the stored list
empty. -/
theorem applyOps_keeps_empty (ops : List LineChartOp)
    (hops : ∀ pl, LineChartOp.push pl ∈ ops → pl.points = []) :
    ∀ c : LineChart, c.polylines = [] → (c.applyOps ops).polylines = [] := by
  induction ops with
  | nil => intro c hc; exact hc
  | cons op ops ih =>
    intro c hc
    have hrest : ∀ pl, LineChartOp.push pl ∈ ops → pl.points = [] :=
      fun pl hpl => hops pl (List.mem_cons_of_mem _ hpl)
    show ((c.applyOp op).applyOps ops).polylines = []
    apply ih hrest
    cases op with
    | push pl =>
      have hpl : pl.points = [] := hops pl (List.mem_cons_self _ _)
      simp [LineChart.applyOp, LineChart.push, hpl, hc]
    | offset o =>
      simp [LineChart.applyOp, LineChart.offset, hc]

/-- C15: for every layout `L`, a line chart with no stored polylines renders to
the empty string, so that no polyline, circle or axis text is produced: this
holds for any chart whose stored list is empty, for a chart freshly
constructed with any margin, scale and axis stroke, and for such a chart after
any sequence of appends of polylines without points and of offsets. -/
theorem empty_chart_renders_nothing (L : Layout) :
    (∀ c : LineChart, c.polylines = [] → c.toString L = Except.ok "") ∧
    (∀ (margin : Dimensions) (scale : ℚ) (axis_stroke : Stroke),
      (LineChart.new margin scale axis_stroke).toString L = Except.ok "") ∧
    (∀ (margin : Dimensions) (scale : ℚ) (axis_stroke : Stroke) (ops : List LineChartOp),
      (∀ pl, LineChartOp.push pl ∈ ops → pl.points = []) →
      ((LineChart.new margin scale axis_stroke).applyOps ops).polylines = [] ∧
      ((LineChart.new margin scale axis_stroke).applyOps ops).toString L = Except.ok "") := by
  refine ⟨fun c hc => toString_of_no_polylines c L hc,
    fun m s a => toString_of_no_polylines _ L rfl, fun m s a ops hops => ?_⟩
  have h := applyOps_keeps_empty ops hops (LineChart.new m s a) rfl
  exact ⟨h, toString_of_no_polylines _ L h⟩

/-- C15 at a concrete sequence: an append of a polyline without points, an
offset and another such append on a fresh chart. -/
theorem empty_chart_renders_nothing_witness :
    ((LineChart.new ⟨5, 5⟩ 2 ⟨1 / 2, Color.ofDefaults Defaults.Purple⟩).applyOps
        [LineChartOp.push (Polyline.new Fill.default Stroke.default),
         LineChartOp.offset ⟨3, 4⟩,
         LineChartOp.push (Polyline.ofStroke ⟨1, Color.ofDefaults Defaults.Red⟩)]).toString
        ⟨⟨100, 100⟩, ⟨100, 100⟩, 1, Origin.BottomLeft, ⟨0, 0⟩⟩ = Except.ok "" :=
  ((empty_chart_renders_nothing ⟨⟨100, 100⟩, ⟨100, 100⟩, 1, Origin.BottomLeft, ⟨0, 0⟩⟩).2.2
    ⟨5, 5⟩ 2 ⟨1 / 2, Color.ofDefaults Defaults.Purple⟩ _
    (by
      intro pl h
      simp only [List.mem_cons, LineChartOp.push.injEq, List.mem_singleton, reduceCtorEq,
        false_or, List.not_mem_nil, or_false] at h
      rcases h with rfl | rfl <;> rfl)).2

/-- Appends and offsets keep the property that every stored polyline has
points. -/
theorem applyOps_keeps_points (ops : List LineChartOp) :
    ∀ c : LineChart, (∀ pl ∈ c.polylines, pl.points ≠ []) →
      ∀ pl ∈ (c.applyOps ops).polylines, pl.points ≠ [] := by
  induction ops with
  | nil => intro c hc; exact hc
  | cons op ops ih =>
    intro c hc
    show ∀ pl ∈ ((c.applyOp op).applyOps ops).polylines, pl.points ≠ []
    apply ih
    cases op with
    | push q =>
      intro pl hpl
      by_cases hq : q.points = []
      · simp only [LineChart.applyOp, LineChart.push, hq, List.isEmpty_nil, if_true] at hpl
        exact hc pl hpl
      · have he : q.points.isEmpty = false := by
          cases hqp : q.points with
          | nil => exact absurd hqp hq
          | cons _ _ => rfl
        simp only [LineChart.applyOp, LineChart.push, he, Bool.false_eq_true, if_false,
          List.mem_append, List.mem_singleton] at hpl
        rcases hpl with hpl | rfl
        · exact hc pl hpl
        · exact hq
    | offset o =>
      intro pl hpl
      simp only [LineChart.applyOp, LineChart.offset, List.mem_map] at hpl
      obtain ⟨q, hq, rfl⟩ := hpl
      have := hc q hq
      simp only [Polyline.offset, offsetPoints, ne_eq, List.map_eq_nil_iff]
      exact this

/-- On a chart whose stored polylines all have points, no member throws. -/
theorem no_throw_of_points (c : LineChart) (L : Layout)
    (hwf : ∀ pl ∈ c.polylines, pl.points ≠ []) :
    (∃ t, c.toString L = Except.ok t) ∧ (∃ d, c.getDimensions = Except.ok d) ∧
    (∃ t, c.axisString L = Except.ok t) ∧
    (∀ pl ∈ c.polylines, ∃ t, c.polylineToString pl L = Except.ok t) := by
  by_cases hne : c.polylines = []
  · have hd : c.getDimensions = Except.ok none := by
      simp [LineChart.getDimensions, hne]
      rfl
    refine ⟨⟨_, toString_of_no_polylines c L hne⟩, ⟨_, hd⟩, ⟨"", ?_⟩, ?_⟩
    · simp only [LineChart.axisString, hd]
      rfl
    · intro pl hpl
      rw [hne] at hpl
      cases hpl
  · obtain ⟨xmin, xmax, ymin, ymax, hdim, _⟩ := getDimensions_bounds c hne hwf
    exact ⟨⟨_, lineChart_toString_eq c L _ hdim hne⟩, ⟨_, hdim⟩, ⟨_, axisString_eq c L _ hdim⟩,
      fun pl _ => ⟨_, polylineToString_eq c L _ hdim pl⟩⟩

/-- C19: every line chart reached from its constructor through any sequence of
appends (`operator<<`) and `offset` calls stores only polylines with at least
one point; therefore, for every such chart and every layout, `toString`,
`getDimensions`, `axisString` and `polylineToString` on a stored polyline
return a value: the throwing branch of the access to an invalid `optional` is
never taken. -/
theorem reachable_chart_never_throws (margin : Dimensions) (scale : ℚ) (axis_stroke : Stroke)
    (ops : List LineChartOp) :
    (∀ pl ∈ ((LineChart.new margin scale axis_stroke).applyOps ops).polylines, pl.points ≠ []) ∧
    (∀ L : Layout,
      (∃ t, ((LineChart.new margin scale axis_stroke).applyOps ops).toString L = Except.ok t) ∧
      (∃ d, ((LineChart.new margin scale axis_stroke).applyOps ops).getDimensions
        = Except.ok d) ∧
      (∃ t, ((LineChart.new margin scale axis_stroke).applyOps ops).axisString L
        = Except.ok t) ∧
      (∀ pl ∈ ((LineChart.new margin scale axis_stroke).applyOps ops).polylines,
        ∃ t, ((LineChart.new margin scale axis_stroke).applyOps ops).polylineToString pl L
          = Except.ok t)) := by
  have hwf := applyOps_keeps_points ops (LineChart.new margin scale axis_stroke)
    (fun pl hpl => by cases hpl)
  exact ⟨hwf, fun L => no_throw_of_points _ L hwf⟩

/-- The need for the guard in `operator<<`: a chart value that does hold a
polyline without points, which no sequence of public calls produces, makes
`toString` throw. -/
theorem unreachable_chart_throws :
    ({ LineChart.new ⟨0, 0⟩ 1 ⟨1 / 2, Color.ofDefaults Defaults.Purple⟩ with
        polylines := [Polyline.new Fill.default Stroke.default] } : LineChart).toString
        ⟨⟨100, 100⟩, ⟨100, 100⟩, 1, Origin.BottomLeft, ⟨0, 0⟩⟩
      = Except.error Exception.std_exception := by
  decide!

/-! ## The sink a document owns -/

/-- Appending shapes touches neither the stream nor the ownership flag nor the
layout. -/
theorem Document.pushAll_keeps_stream (shapes : List Shape) :
    ∀ d d1 : Document, d.pushAll shapes = Except.ok d1 →
      d1.stream = d.stream ∧ d1.stream_real = d.stream_real ∧ d1.layout = d.layout := by
  induction shapes with
  | nil =>
    intro d d1 h
    have h1 : (Except.ok d : Except Exception Document) = Except.ok d1 := h
    injection h1 with h2
    subst h2
    exact ⟨rfl, rfl, rfl⟩
  | cons s ss ih =>
    intro d d1 h
    simp only [Document.pushAll, List.foldlM_cons] at h
    cases hs : d.push s with
    | error e => rw [hs] at h; cases h
    | ok d2 =>
      rw [hs] at h
      obtain ⟨f, _, hd2⟩ := Document.push_inv d d2 s hs
      obtain ⟨h1, h2, h3⟩ := ih d2 d1 h
      rw [h1, h2, h3, hd2]
      exact ⟨rfl, rfl, rfl⟩

/-- The member `save` does not change who owns the sink. -/
theorem save_keeps_owner (d : Document) : d.save.2.stream_real = d.stream_real := by
  cases hg : d.stream.good <;> cases ho : d.stream_real <;> simp [Document.save, hg, ho]

/-- A document that owns its sink, whose file stream is good whenever it is
open, has a closed sink after `save`. -/
theorem save_closes_owned (d : Document) (hown : d.stream_real = true)
    (hfile : d.stream.is_open = true → d.stream.good = true) :
    d.save.2.stream.is_open = false ∧ d.save.1 = d.stream.good := by
  cases hg : d.stream.good
  · have hopen : d.stream.is_open = false := by
      cases ho : d.stream.is_open
      · rfl
      · rw [hfile ho] at hg; cases hg
    simp [Document.save, hg, hopen]
  · cases ho : d.stream.is_open <;>
      simp [Document.save, hg, ho, hown, OStream.write, OStream.close,
        Document.toString_ne_empty]

/-- C20: with the sink as explicit state carrying an open/closed flag, for
every document built on a file (so that it owns its sink), with any shapes
appended, the sink is closed when `save` returns, on both exit paths: when the
file could be opened, `save` returns `true` after writing and calling
`close()`; when it could not, the stream is not good, `save` returns `false`
at once, without a call of `close()`, and the sink is closed because the
failed open never opened it.  A further `save` leaves the sink closed. -/
theorem owned_sink_closed_after_save (opened : Bool) (L : Layout) (shapes : List Shape)
    (d : Document)
    (h : (Document.ofFile (OStream.openFile opened) L).pushAll shapes = Except.ok d) :
    d.stream_real = true ∧
    d.save.1 = opened ∧
    d.save.2.stream.is_open = false ∧
    d.save.2.save.2.stream.is_open = false ∧
    (opened = true → d.save.1 = true ∧ d.save.2.stream.written = d.toString) ∧
    (opened = false → d.save.1 = false ∧ d.save.2 = d ∧ d.stream.is_open = false) := by
  obtain ⟨h1, h2, _⟩ := Document.pushAll_keeps_stream shapes _ d h
  have hown : d.stream_real = true := by rw [h2]; rfl
  have hstream : d.stream = OStream.openFile opened := by rw [h1]; rfl
  have hfile : d.stream.is_open = true → d.stream.good = true := by
    rw [hstream]; exact fun hh => hh
  have hgood : d.stream.good = opened := by rw [hstream]; rfl
  obtain ⟨hc, hr⟩ := save_closes_owned d hown hfile
  refine ⟨hown, by rw [hr, hgood], hc, ?_, ?_, ?_⟩
  · have hown2 : d.save.2.stream_real = true := by
      rw [save_keeps_owner, hown]
    exact (save_closes_owned d.save.2 hown2 (fun ho => by rw [hc] at ho; cases ho)).1
  · intro ho
    subst ho
    have hw : d.stream.written = "" := by rw [hstream]; rfl
    have hopen : d.stream.is_open = true := by rw [hstream]; rfl
    refine ⟨by rw [hr, hgood], ?_⟩
    simp only [Document.save, hgood, hown, hopen, OStream.write, OStream.close, hw]
    simp
  · intro ho
    subst ho
    have hopen : d.stream.is_open = false := by rw [hstream]; rfl
    refine ⟨by rw [hr, hgood], ?_, hopen⟩
    simp [Document.save, hgood]

/-- C20 on both exit paths: a document on a file that could be opened and one
on a file that could not, each with a circle appended. -/
theorem owned_sink_closed_after_save_witness :
    (∀ d : Document,
      (Document.ofFile (OStream.openFile true)
          ⟨⟨100, 100⟩, ⟨100, 100⟩, 1, Origin.TopLeft, ⟨0, 0⟩⟩).pushAll
        [Shape.circle (Circle.new ⟨10, 10⟩ 4 (Fill.ofDefaults Defaults.Red) Stroke.default)]
        = Except.ok d → d.save.1 = true ∧ d.save.2.stream.is_open = false) ∧
    (∀ d : Document,
      (Document.ofFile (OStream.openFile false)
          ⟨⟨100, 100⟩, ⟨100, 100⟩, 1, Origin.TopLeft, ⟨0, 0⟩⟩).pushAll
        [Shape.circle (Circle.new ⟨10, 10⟩ 4 (Fill.ofDefaults Defaults.Red) Stroke.default)]
        = Except.ok d → d.save.1 = false ∧ d.save.2.stream.is_open = false) :=
  ⟨fun d h => ⟨(owned_sink_closed_after_save true _ _ d h).2.1,
      (owned_sink_closed_after_save true _ _ d h).2.2.1⟩,
   fun d h => ⟨(owned_sink_closed_after_save false _ _ d h).2.1,
      (owned_sink_closed_after_save false _ _ d h).2.2.1⟩⟩

/-! ## Offset and pan -/

/-- Adding `d.x` to a logical `x` is adding `d.x` to the horizontal origin
offset of the layout. -/
theorem translateX_pan (L : Layout) (d : Point) (x w : ℚ) :
    translateX L (x + d.x) w
      = translateX { L with origin_offset := ⟨L.origin_offset.x + d.x, L.origin_offset.y + d.y⟩ }
          x w := by
  cases ho : L.origin <;> simp only [translateX, ho] <;> ring

/-- Adding `d.y` to a logical `y` is adding `d.y` to the vertical origin offset
of the layout. -/
theorem translateY_pan (L : Layout) (d : Point) (y h : ℚ) :
    translateY L (y + d.y) h
      = translateY { L with origin_offset := ⟨L.origin_offset.x + d.x, L.origin_offset.y + d.y⟩ }
          y h := by
  cases ho : L.origin <;> simp only [translateY, ho] <;> ring

/-- The points attribute of offset points is the points attribute of the
stored points under the panned layout. -/
theorem pointsToString_pan (L : Layout) (d : Point) (pts : List Point) :
    pointsToString (offsetPoints pts d) L
      = pointsToString pts
          { L with origin_offset := ⟨L.origin_offset.x + d.x, L.origin_offset.y + d.y⟩ } := by
  rw [pointsToString_eq_join, pointsToString_eq_join, offsetPoints, List.map_map]
  congr 1
  apply List.map_congr_left
  intro p _
  simp only [Function.comp_apply]
  rw [translateX_pan, translateY_pan]

/-- C21: offsetting a shape is the same as panning the layout.  For each of the
seven primitive shapes, every offset `d` and every layout `L` (any origin, any
scale), the rendering with `L` of the shape after `offset(d)` is the rendering
of the shape as it was with the layout that is `L` with `origin_offset`
replaced by `origin_offset + d` (arithmetic on rationals, so exact). -/
theorem offset_is_pan (L : Layout) (d : Point) :
    (∀ s : Circle, (s.offset d).toString L
      = s.toString
          { L with origin_offset := ⟨L.origin_offset.x + d.x, L.origin_offset.y + d.y⟩ }) ∧
    (∀ s : Elipse, (s.offset d).toString L
      = s.toString
          { L with origin_offset := ⟨L.origin_offset.x + d.x, L.origin_offset.y + d.y⟩ }) ∧
    (∀ s : Rectangle, (s.offset d).toString L
      = s.toString
          { L with origin_offset := ⟨L.origin_offset.x + d.x, L.origin_offset.y + d.y⟩ }) ∧
    (∀ s : Line, (s.offset d).toString L
      = s.toString
          { L with origin_offset := ⟨L.origin_offset.x + d.x, L.origin_offset.y + d.y⟩ }) ∧
    (∀ s : Polygon, (s.offset d).toString L
      = s.toString
          { L with origin_offset := ⟨L.origin_offset.x + d.x, L.origin_offset.y + d.y⟩ }) ∧
    (∀ s : Polyline, (s.offset d).toString L
      = s.toString
          { L with origin_offset := ⟨L.origin_offset.x + d.x, L.origin_offset.y + d.y⟩ }) ∧
    (∀ s : Text, (s.offset d).toString L
      = s.toString
          { L with origin_offset := ⟨L.origin_offset.x + d.x, L.origin_offset.y + d.y⟩ }) := by
  refine ⟨fun s => ?_, fun s => ?_, fun s => ?_, fun s => ?_, fun s => ?_, fun s => ?_,
    fun s => ?_⟩
  · simp only [Circle.toString, Circle.offset, translateX_pan, translateY_pan]
    rfl
  · simp only [Elipse.toString, Elipse.offset, translateX_pan, translateY_pan]
    rfl
  · simp only [Rectangle.toString, Rectangle.offset, translateX_pan, translateY_pan]
    rfl
  · simp only [Line.toString, Line.offset, translateX_pan, translateY_pan]
    rfl
  · simp only [Polygon.toString, Polygon.offset, pointsToString_pan]
    rfl
  · simp only [Polyline.toString, Polyline.offset, pointsToString_pan]
    rfl
  · simp only [Text.toString, Text.offset, translateX_pan, translateY_pan]
    rfl

/-- The offset and the pan of a concrete rectangle, evaluated: origin
`BottomRight`, scale 2, offset `(3, 4)`; both renderings are the same text. -/
theorem offset_is_pan_evaluated :
    ((Rectangle.new ⟨1, 2⟩ 10 20 (Fill.ofDefaults Defaults.Red)
        ⟨1, Color.ofDefaults Defaults.Black⟩).offset ⟨3, 4⟩).toString
        ⟨⟨400, 300⟩, ⟨900, 900⟩, 2, Origin.BottomRight, ⟨5, 6⟩⟩
      = "\t<rect x=\"372\" y=\"256\" width=\"20\" height=\"40\" fill=\"rgb(255,0,0)\" "
          ++ "stroke-width=\"2\" stroke=\"rgb(0,0,0)\" />\n" ∧
    (Rectangle.new ⟨1, 2⟩ 10 20 (Fill.ofDefaults Defaults.Red)
        ⟨1, Color.ofDefaults Defaults.Black⟩).toString
        ⟨⟨400, 300⟩, ⟨900, 900⟩, 2, Origin.BottomRight, ⟨5 + 3, 6 + 4⟩⟩
      = "\t<rect x=\"372\" y=\"256\" width=\"20\" height=\"40\" fill=\"rgb(255,0,0)\" "
          ++ "stroke-width=\"2\" stroke=\"rgb(0,0,0)\" />\n" := by
  constructor <;> decide!

/-! ## Offset of a chart -/

/-- A running minimum of values all shifted by `k` is the running minimum
shifted by `k`. -/
theorem foldl_min_shift (k : ℚ) (l : List ℚ) :
    ∀ a : ℚ, (l.map (fun v => v + k)).foldl min (a + k) = l.foldl min a + k := by
  induction l with
  | nil => intro a; rfl
  | cons v vs ih =>
    intro a
    simp only [List.map_cons, List.foldl_cons, min_add_add_right, ih]

theorem foldl_max_shift (k : ℚ) (l : List ℚ) :
    ∀ a : ℚ, (l.map (fun v => v + k)).foldl max (a + k) = l.foldl max a + k := by
  induction l with
  | nil => intro a; rfl
  | cons v vs ih =>
    intro a
    simp only [List.map_cons, List.foldl_cons, max_add_add_right, ih]

/-- The data points of an offset chart are the data points, each shifted. -/
theorem dataPoints_offset (c : LineChart) (d : Point) :
    (c.offset d).dataPoints
      = c.dataPoints.map (fun p => (⟨p.x + d.x, p.y + d.y⟩ : Point)) := by
  simp only [LineChart.dataPoints, LineChart.offset, List.map_map, List.map_flatten]
  congr 1

/-- An offset keeps the property that every stored polyline has points. -/
theorem offset_keeps_points (c : LineChart) (d : Point)
    (hwf : ∀ pl ∈ c.polylines, pl.points ≠ []) :
    ∀ pl ∈ (c.offset d).polylines, pl.points ≠ [] :=
  applyOps_keeps_points [LineChartOp.offset d] c hwf

/-- The data dimensions of a chart whose polylines all have points are the
same before and after an offset. -/
theorem getDimensions_offset (c : LineChart) (d : Point) (hne : c.polylines ≠ [])
    (hwf : ∀ pl ∈ c.polylines, pl.points ≠ []) :
    (c.offset d).getDimensions = c.getDimensions := by
  obtain ⟨pl0, rest, hc⟩ := List.exists_cons_of_ne_nil hne
  obtain ⟨p00, ps0, hp⟩ :=
    List.exists_cons_of_ne_nil (hwf pl0 (by rw [hc]; exact List.mem_cons_self _ _))
  have hc1 : (c.offset d).polylines = pl0.offset d :: rest.map (fun pl => pl.offset d) := by
    simp only [LineChart.offset, hc, List.map_cons]
  have hp1 : (pl0.offset d).points
      = ⟨p00.x + d.x, p00.y + d.y⟩ :: ps0.map (fun p => (⟨p.x + d.x, p.y + d.y⟩ : Point)) := by
    simp only [Polyline.offset, offsetPoints, hp, List.map_cons]
  have hmx : ∀ l : List Point,
      (l.map (fun p => (⟨p.x + d.x, p.y + d.y⟩ : Point))).map Point.x
        = (l.map Point.x).map (fun v => v + d.x) := by
    intro l; simp only [List.map_map]; rfl
  have hmy : ∀ l : List Point,
      (l.map (fun p => (⟨p.x + d.x, p.y + d.y⟩ : Point))).map Point.y
        = (l.map Point.y).map (fun v => v + d.y) := by
    intro l; simp only [List.map_map]; rfl
  rw [getDimensions_closed (c.offset d) _ _ _ _ hc1 hp1 (offset_keeps_points c d hwf),
    getDimensions_closed c pl0 rest p00 ps0 hc hp hwf, dataPoints_offset]
  simp only [hmx, hmy, foldl_min_shift, foldl_max_shift, add_sub_add_right_eq_sub]

/-- C22: offsetting a line chart moves the data but neither the axis nor the
size of the circles.  For every line chart `c` that holds at least one polyline
(all stored polylines having points), every offset `d` and every layout `L`:
`getDimensions` returns the same data dimensions before and after
`c.offset(d)` (arithmetic on rationals, so exact); hence the axis text is the
same, and both renderings end with it; the circles of both renderings have the
same radius, a sixtieth of the data height; and the stored polylines of the
offset chart are those of `c` with every point shifted by `d`, margin and axis
stroke being untouched. -/
theorem lineChart_offset_spec (c : LineChart) (d : Point) (L : Layout)
    (hne : c.polylines ≠ []) (hwf : ∀ pl ∈ c.polylines, pl.points ≠ []) :
    ∃ dim : Dimensions,
      c.getDimensions = Except.ok (some dim) ∧
      (c.offset d).getDimensions = Except.ok (some dim) ∧
      (c.offset d).axisString L = c.axisString L ∧
      c.axisString L = Except.ok ((c.axisPolyline dim).toString L) ∧
      c.toString L
        = Except.ok (String.join (c.polylines.map (fun q =>
              (q.offset ⟨c.margin.width, c.margin.height⟩).toString L
                ++ String.join ((q.offset ⟨c.margin.width, c.margin.height⟩).points.map
                    (fun p => (Circle.new p (dim.height / 30)
                      (Fill.ofDefaults Defaults.Black) Stroke.default).toString L))))
            ++ (c.axisPolyline dim).toString L) ∧
      (c.offset d).toString L
        = Except.ok (String.join (c.polylines.map (fun q =>
              ((q.offset d).offset ⟨c.margin.width, c.margin.height⟩).toString L
                ++ String.join
                  (((q.offset d).offset ⟨c.margin.width, c.margin.height⟩).points.map
                    (fun p => (Circle.new p (dim.height / 30)
                      (Fill.ofDefaults Defaults.Black) Stroke.default).toString L))))
            ++ (c.axisPolyline dim).toString L) ∧
      (∀ p : Point,
        (Circle.new p (dim.height / 30) (Fill.ofDefaults Defaults.Black) Stroke.default).radius
          = dim.height / 60) ∧
      (c.offset d).polylines = c.polylines.map (fun q => q.offset d) ∧
      (∀ q : Polyline,
        (q.offset d).points = q.points.map (fun p => (⟨p.x + d.x, p.y + d.y⟩ : Point)) ∧
        (q.offset d).fill = q.fill ∧ (q.offset d).stroke = q.stroke) ∧
      (c.offset d).margin = c.margin ∧ (c.offset d).axis_stroke = c.axis_stroke := by
  obtain ⟨xmin, xmax, ymin, ymax, hdim, _⟩ := getDimensions_bounds c hne hwf
  have hdim1 : (c.offset d).getDimensions = Except.ok (some ⟨xmax - xmin, ymax - ymin⟩) := by
    rw [getDimensions_offset c d hne hwf, hdim]
  have hne1 : (c.offset d).polylines ≠ [] := by
    simp only [LineChart.offset, ne_eq, List.map_eq_nil_iff]
    exact hne
  have haxis := axisString_eq c L _ hdim
  have haxis1 : (c.offset d).axisString L = c.axisString L := by
    rw [axisString_eq (c.offset d) L _ hdim1, haxis]
    rfl
  have htext := lineChart_toString_eq c L _ hdim hne
  simp only [LineChart.vertexCircle] at htext
  have htext1 := lineChart_toString_eq (c.offset d) L _ hdim1 hne1
  simp only [LineChart.vertexCircle, LineChart.offset, List.map_map] at htext1
  have hrad : ∀ p : Point,
      (Circle.new p ((⟨xmax - xmin, ymax - ymin⟩ : Dimensions).height / 30)
        (Fill.ofDefaults Defaults.Black) Stroke.default).radius
        = (⟨xmax - xmin, ymax - ymin⟩ : Dimensions).height / 60 := by
    intro p
    simp only [Circle.new]
    ring
  exact ⟨_, hdim, hdim1, haxis1, haxis, htext, htext1, hrad, rfl, fun q => ⟨rfl, rfl, rfl⟩,
    rfl, rfl⟩

/-- C22 at a concrete chart: margin 5, two polylines `(0,0) (10,2)` and `(3,5)`,
offset `(7, -3)`; the axis text is the same before and after. -/
theorem lineChart_offset_spec_witness :
    ((((LineChart.new ⟨5, 5⟩ 1 ⟨1 / 2, Color.ofDefaults Defaults.Purple⟩).push
        (Polyline.ofPoints [⟨0, 0⟩, ⟨10, 2⟩] Fill.default Stroke.default)).push
        (Polyline.ofPoints [⟨3, 5⟩] Fill.default Stroke.default)).offset ⟨7, -3⟩).axisString
        ⟨⟨100, 100⟩, ⟨100, 100⟩, 1, Origin.BottomLeft, ⟨0, 0⟩⟩
      = (((LineChart.new ⟨5, 5⟩ 1 ⟨1 / 2, Color.ofDefaults Defaults.Purple⟩).push
        (Polyline.ofPoints [⟨0, 0⟩, ⟨10, 2⟩] Fill.default Stroke.default)).push
        (Polyline.ofPoints [⟨3, 5⟩] Fill.default Stroke.default)).axisString
        ⟨⟨100, 100⟩, ⟨100, 100⟩, 1, Origin.BottomLeft, ⟨0, 0⟩⟩ := by
  obtain ⟨dim, _, _, h, _⟩ :=
    lineChart_offset_spec
      (((LineChart.new ⟨5, 5⟩ 1 ⟨1 / 2, Color.ofDefaults Defaults.Purple⟩).push
        (Polyline.ofPoints [⟨0, 0⟩, ⟨10, 2⟩] Fill.default Stroke.default)).push
        (Polyline.ofPoints [⟨3, 5⟩] Fill.default Stroke.default))
      ⟨7, -3⟩ ⟨⟨100, 100⟩, ⟨100, 100⟩, 1, Origin.BottomLeft, ⟨0, 0⟩⟩ (by decide) (by decide)
  exact h

/-- The offset chart of the example above, rendered: the polylines and circles
are moved by `(7, -3)`, the circle radius and the axis are as before. -/
theorem lineChart_offset_evaluated :
    ((((LineChart.new ⟨5, 5⟩ 1 ⟨1 / 2, Color.ofDefaults Defaults.Purple⟩).push
        (Polyline.ofPoints [⟨0, 0⟩, ⟨10, 2⟩] Fill.default Stroke.default)).push
        (Polyline.ofPoints [⟨3, 5⟩] Fill.default Stroke.default)).offset ⟨7, -3⟩).toString
        ⟨⟨100, 100⟩, ⟨100, 100⟩, 1, Origin.TopLeft, ⟨0, 0⟩⟩
      = Except.ok
        ("\t<polyline points=\"12,2 22,4 \" fill=\"transparent\" />\n"
          ++ "\t<circle cx=\"12\" cy=\"2\" r=\"0.0833333\" fill=\"rgb(0,0,0)\" />\n"
          ++ "\t<circle cx=\"22\" cy=\"4\" r=\"0.0833333\" fill=\"rgb(0,0,0)\" />\n"
          ++ "\t<polyline points=\"15,7 \" fill=\"transparent\" />\n"
          ++ "\t<circle cx=\"15\" cy=\"7\" r=\"0.0833333\" fill=\"rgb(0,0,0)\" />\n"
          ++ "\t<polyline points=\"5,10.5 5,5 16,5 \" fill=\"transparent\" "
          ++ "stroke-width=\"0.5\" stroke=\"rgb(128,0,128)\" />\n") := by
  decide!

/-! ## The scale member of a chart -/

/-- No member that renders reads the `scale` member of a chart. -/
theorem toString_ignores_scale (c : LineChart) (scale : ℚ) (L : Layout) :
    ({ c with scale := scale } : LineChart).toString L = c.toString L ∧
    ({ c with scale := scale } : LineChart).getDimensions = c.getDimensions ∧
    ({ c with scale := scale } : LineChart).axisString L = c.axisString L ∧
    (∀ q : Polyline,
      ({ c with scale := scale } : LineChart).polylineToString q L = c.polylineToString q L) :=
  ⟨rfl, rfl, rfl, fun _ => rfl⟩

/-- Appends and offsets neither read nor write the `scale` member. -/
theorem applyOps_scale (ops : List LineChartOp) :
    ∀ (c : LineChart) (scale : ℚ),
      ({ c with scale := scale } : LineChart).applyOps ops
        = { c.applyOps ops with scale := scale } := by
  induction ops with
  | nil => intro c scale; rfl
  | cons op ops ih =>
    intro c scale
    show (({ c with scale := scale } : LineChart).applyOp op).applyOps ops
      = { (c.applyOp op).applyOps ops with scale := scale }
    rw [← ih]
    congr 1
    cases op with
    | push q =>
      by_cases hq : q.points.isEmpty = true
      · simp only [LineChart.applyOp, LineChart.push, hq, if_true]
      · simp only [LineChart.applyOp, LineChart.push, hq, if_false]
        trivial
    | offset o => rfl

/-- C23: the scale factor of a line chart has no effect on the output.  Two
charts built with the same margin and the same axis stroke but the scale
arguments `scale1` and `scale2`, and given the same sequence of appends and
offsets, hold the same polylines and render, for every layout `L`, to the same
result; the only scaling applied is that of `L`. -/
theorem chart_scale_has_no_effect (margin : Dimensions) (axis_stroke : Stroke)
    (scale1 scale2 : ℚ) (ops : List LineChartOp) (L : Layout) :
    ((LineChart.new margin scale1 axis_stroke).applyOps ops).toString L
      = ((LineChart.new margin scale2 axis_stroke).applyOps ops).toString L ∧
    ((LineChart.new margin scale1 axis_stroke).applyOps ops).polylines
      = ((LineChart.new margin scale2 axis_stroke).applyOps ops).polylines ∧
    ((LineChart.new margin scale1 axis_stroke).applyOps ops).scale = scale1 ∧
    ((LineChart.new margin scale2 axis_stroke).applyOps ops).scale = scale2 := by
  have h1 : LineChart.new margin scale1 axis_stroke
      = { LineChart.new margin scale2 axis_stroke with scale := scale1 } := rfl
  have h2 : LineChart.new margin scale2 axis_stroke
      = { LineChart.new margin scale2 axis_stroke with scale := scale2 } := rfl
  refine ⟨?_, ?_, ?_, ?_⟩
  · rw [h1, applyOps_scale]
    exact (toString_ignores_scale _ scale1 L).1
  · rw [h1, applyOps_scale]
  · rw [h1, applyOps_scale]
  · rw [h2, applyOps_scale]

/-- Two charts that differ in the scale argument only, 1 against 40, evaluated
after the same calls on a layout of scale 2: the same text, in which lengths
are scaled by 2 and by nothing else. -/
theorem chart_scale_evaluated :
    ((LineChart.new ⟨5, 5⟩ 1 ⟨1 / 2, Color.ofDefaults Defaults.Purple⟩).applyOps
        [LineChartOp.push (Polyline.ofPoints [⟨0, 0⟩, ⟨10, 5⟩] Fill.default Stroke.default),
         LineChartOp.offset ⟨1, 1⟩]).toString
        ⟨⟨100, 100⟩, ⟨100, 100⟩, 2, Origin.TopLeft, ⟨0, 0⟩⟩
      = Except.ok
        ("\t<polyline points=\"12,12 32,22 \" fill=\"transparent\" />\n"
          ++ "\t<circle cx=\"12\" cy=\"12\" r=\"0.166667\" fill=\"rgb(0,0,0)\" />\n"
          ++ "\t<circle cx=\"32\" cy=\"22\" r=\"0.166667\" fill=\"rgb(0,0,0)\" />\n"
          ++ "\t<polyline points=\"10,21 10,10 32,10 \" fill=\"transparent\" "
          ++ "stroke-width=\"1\" stroke=\"rgb(128,0,128)\" />\n") ∧
    ((LineChart.new ⟨5, 5⟩ 40 ⟨1 / 2, Color.ofDefaults Defaults.Purple⟩).applyOps
        [LineChartOp.push (Polyline.ofPoints [⟨0, 0⟩, ⟨10, 5⟩] Fill.default Stroke.default),
         LineChartOp.offset ⟨1, 1⟩]).toString
        ⟨⟨100, 100⟩, ⟨100, 100⟩, 2, Origin.TopLeft, ⟨0, 0⟩⟩
      = Except.ok
        ("\t<polyline points=\"12,12 32,22 \" fill=\"transparent\" />\n"
          ++ "\t<circle cx=\"12\" cy=\"12\" r=\"0.166667\" fill=\"rgb(0,0,0)\" />\n"
          ++ "\t<circle cx=\"32\" cy=\"22\" r=\"0.166667\" fill=\"rgb(0,0,0)\" />\n"
          ++ "\t<polyline points=\"10,21 10,10 32,10 \" fill=\"transparent\" "
          ++ "stroke-width=\"1\" stroke=\"rgb(128,0,128)\" />\n") := by
  constructor <;> decide!

end svg
